import Mathlib

/-!
A shallow embedding of `gmaps-keycheck.py` (a Google-Maps API-key checking
script) and proofs about it.

Modelling conventions:
* Python strings are `List Char` (named `Str`); byte strings are `List Nat`.
* JSON values are the inductive `JsonVal`.  JSON numbers are carried by their
  decimal display token (the claims under study never depend on numeric
  arithmetic, only on which value flows where and on its rendering).
* Fallible Python operations (`d[k]`, `d.get`, `x in d`, `len`, `int(...)`,
  `l[0]`) are modelled in the exception monad `PyM := Except PyErr`,
  mirroring the exact situations in which CPython raises.
* The network is a parameter `env : Request → HttpOutcome`: what the remote
  server answers for each request the script could send.  A run of
  `test_key_place` produces, besides its result mapping, a `Trace` of the
  HTTP requests issued and files written, in order; the trace survives an
  uncaught exception, matching the fact that side effects already happened.
-/

abbrev Str := List Char

def lit (s : String) : Str := s.toList

/-- Errors a modelled Python operation can raise. -/
inductive PyErr where
  | keyError | indexError | typeError | attrError | valueError
  deriving DecidableEq, Repr

abbrev PyM := Except PyErr

/-- JSON values, as produced by `response.json()`.  Numbers are represented by
their decimal display token (see module docstring). -/
inductive JsonVal where
  | null
  | boolv (b : Bool)
  | num (tok : Str)
  | strv (s : Str)
  | arr (xs : List JsonVal)
  | obj (kvs : List (Str × JsonVal))

/-- First-match association-list lookup (Python `dict` lookup; the dicts the
script builds never contain duplicate keys). -/
def alook {α : Type} (kvs : List (Str × α)) (k : Str) : Option α :=
  match kvs with
  | [] => none
  | (k₁, v) :: tl => if k₁ = k then some v else alook tl k

/-- Python `js.get(k, d)`: raises `AttributeError` unless `js` is a dict. -/
def jget (js : JsonVal) (k : Str) (d : JsonVal) : PyM JsonVal :=
  match js with
  | .obj kvs => pure ((alook kvs k).getD d)
  | _ => throw .attrError

/-- Python `js[k]` with a string key. -/
def jsubs (js : JsonVal) (k : Str) : PyM JsonVal :=
  match js with
  | .obj kvs =>
    match alook kvs k with
    | some v => pure v
    | none => throw .keyError
  | _ => throw .typeError

/-- Python `js[i]` with a non-negative integer index. -/
def jsubi (js : JsonVal) (i : Nat) : PyM JsonVal :=
  match js with
  | .arr xs =>
    match xs.getD i JsonVal.null, decide (i < xs.length) with
    | v, true => pure v
    | _, false => throw .indexError
  | .strv s =>
    match s.getD i ' ', decide (i < s.length) with
    | c, true => pure (.strv [c])
    | _, false => throw .indexError
  | .obj _ => throw .keyError
  | _ => throw .typeError

/-- Python `k in js` for a string `k`: key membership on dicts, element
equality on lists, substring test on strings. -/
def pyIn (k : Str) (js : JsonVal) : PyM Bool :=
  match js with
  | .obj kvs => pure (kvs.any (fun p => p.1 = k))
  | .arr xs => pure (xs.any (fun v => match v with | .strv t => t = k | _ => false))
  | .strv s => pure (decide (k <:+: s))
  | _ => throw .typeError

/-- Python `len(js)`. -/
def pyLen (js : JsonVal) : PyM Nat :=
  match js with
  | .arr xs => pure xs.length
  | .strv s => pure s.length
  | .obj kvs => pure kvs.length
  | _ => throw .typeError

/-- A number token denotes zero iff all its digits are `0`
(`"0"`, `"0.0"`, `"-0.0"`, `"0e7"`, ...). -/
def numIsZero (tok : Str) : Bool :=
  (tok.filter (fun c => c.isDigit)).all (fun c => c = '0')

/-- Python truthiness of a JSON value. -/
def truthy (js : JsonVal) : Bool :=
  match js with
  | .null => false
  | .boolv b => b
  | .num tok => !numIsZero tok
  | .strv s => !s.isEmpty
  | .arr xs => !xs.isEmpty
  | .obj kvs => !kvs.isEmpty

/-- Python `v == "lit"` (structural equality against a string literal). -/
def eqStr (v : JsonVal) (s : Str) : Bool :=
  match v with
  | .strv t => t = s
  | _ => false

/-- Decimal digits of a natural number. -/
def natStr (n : Nat) : Str := Nat.toDigits 10 n

/-- Python `str` of an integer. -/
def intStr (i : Int) : Str :=
  if i < 0 then '-' :: natStr i.natAbs else natStr i.natAbs

def lbrace : Char := Char.ofNat 123
def rbrace : Char := Char.ofNat 125

/-- One-level rendering of a JSON value inside an f-string (Python `str()`).
Containers nested below the top level are abbreviated; no claim under study
interpolates a nested container. -/
def pyStrAtom (js : JsonVal) : Str :=
  match js with
  | .null => lit "None"
  | .boolv true => lit "True"
  | .boolv false => lit "False"
  | .num tok => tok
  | .strv s => '\'' :: s ++ ['\'']
  | .arr _ => lit "[...]"
  | .obj _ => [lbrace] ++ lit "..." ++ [rbrace]

/-- Python `f"{js}"`. -/
def pyStr (js : JsonVal) : Str :=
  match js with
  | .null => lit "None"
  | .boolv true => lit "True"
  | .boolv false => lit "False"
  | .num tok => tok
  | .strv s => s
  | .arr xs =>
      '[' :: (((xs.map pyStrAtom).intersperse (lit ", ")).flatten ++ [']'])
  | .obj kvs =>
      [lbrace] ++ ((kvs.map (fun p => pyStrAtom (.strv p.1) ++ lit ": " ++ pyStrAtom p.2)).intersperse (lit ", ")).flatten ++ [rbrace]

/-- Python `int(s)` on a header value: optional sign followed by digits. -/
def pyIntOfStr (s : Str) : PyM Int :=
  match s with
  | '-' :: tl =>
      if tl ≠ [] ∧ tl.all Char.isDigit then pure (-(Nat.ofDigits 10 ((tl.map (fun c => c.toNat - 48)).reverse) : Int))
      else throw .valueError
  | '+' :: tl =>
      if tl ≠ [] ∧ tl.all Char.isDigit then pure ((Nat.ofDigits 10 ((tl.map (fun c => c.toNat - 48)).reverse) : Int))
      else throw .valueError
  | _ =>
      if s ≠ [] ∧ s.all Char.isDigit then pure ((Nat.ofDigits 10 ((s.map (fun c => c.toNat - 48)).reverse) : Int))
      else throw .valueError

/-! ### SHA-1 (model of `hashlib.sha1`), UTF-8 (model of `str.encode`) -/

/-- UTF-8 encoding of one character. -/
def utf8Char (c : Char) : List Nat :=
  let n := c.toNat
  if n < 128 then [n]
  else if n < 2048 then [192 + n / 64, 128 + n % 64]
  else if n < 65536 then [224 + n / 4096, 128 + (n / 64) % 64, 128 + n % 64]
  else [240 + n / 262144, 128 + (n / 4096) % 64, 128 + (n / 64) % 64, 128 + n % 64]

/-- UTF-8 encoding of a string (Python `s.encode()`). -/
def utf8 (s : Str) : List Nat := (s.map utf8Char).flatten

def w32 (n : Nat) : Nat := n % 4294967296

def rotl32 (k n : Nat) : Nat := w32 ((n <<< k) ||| (n >>> (32 - k)))

/-- `k` bytes of `n`, big-endian. -/
def beBytes (k n : Nat) : List Nat :=
  match k with
  | 0 => []
  | j + 1 => ((n >>> (8 * j)) % 256) :: beBytes j n

/-- Group bytes into 32-bit big-endian words. -/
def toWords : List Nat → List Nat
  | a :: b :: c :: d :: rest => (a * 16777216 + b * 65536 + c * 256 + d) :: toWords rest
  | _ => []

/-- Message-schedule extension: `acc` holds the words produced so far, most
recent first; `n` more words are to be produced. -/
def sha1ext (acc : List Nat) : Nat → List Nat
  | 0 => acc.reverse
  | n + 1 =>
      let nw := rotl32 1 ((acc.getD 2 0) ^^^ (acc.getD 7 0) ^^^ (acc.getD 13 0) ^^^ (acc.getD 15 0))
      sha1ext (nw :: acc) n

def sha1f (i b c d : Nat) : Nat :=
  if i < 20 then (b &&& c) ||| ((b ^^^ 4294967295) &&& d)
  else if i < 40 then b ^^^ c ^^^ d
  else if i < 60 then (b &&& c) ||| (b &&& d) ||| (c &&& d)
  else b ^^^ c ^^^ d

def sha1k (i : Nat) : Nat :=
  if i < 20 then 1518500249
  else if i < 40 then 1859775393
  else if i < 60 then 2400959708
  else 3395469782

abbrev Sha1St := Nat × Nat × Nat × Nat × Nat

def sha1round (st : Sha1St) (iw : Nat × Nat) : Sha1St :=
  let t := w32 (rotl32 5 st.1 + sha1f iw.1 st.2.1 st.2.2.1 st.2.2.2.1 + st.2.2.2.2 + sha1k iw.1 + iw.2)
  (t, st.1, rotl32 30 st.2.1, st.2.2.1, st.2.2.2.1)

def sha1block (h : Sha1St) (block : List Nat) : Sha1St :=
  let ws := sha1ext (toWords block).reverse 64
  let f := ws.enum.foldl sha1round h
  (w32 (h.1 + f.1), w32 (h.2.1 + f.2.1), w32 (h.2.2.1 + f.2.2.1),
   w32 (h.2.2.2.1 + f.2.2.2.1), w32 (h.2.2.2.2 + f.2.2.2.2))

/-- Split into 64-byte chunks (`fuel` bounds the recursion; it is instantiated
with the list's length, which suffices). -/
def chunk64 (fuel : Nat) (l : List Nat) : List (List Nat) :=
  match fuel, l with
  | 0, _ => []
  | _, [] => []
  | f + 1, x :: tl => (x :: tl).take 64 :: chunk64 f ((x :: tl).drop 64)

/-- SHA-1 padding: `0x80`, zeros to 56 mod 64, then the bit length, 8 bytes
big-endian. -/
def sha1padTail (len : Nat) : List Nat :=
  128 :: List.replicate ((119 - len % 64) % 64) 0 ++ beBytes 8 (8 * len)

def sha1bytes (msg : List Nat) : List Nat :=
  let padded := msg ++ sha1padTail msg.length
  let h := (chunk64 padded.length padded).foldl sha1block
    (1732584193, 4023233417, 2562383102, 271733878, 3285377520)
  beBytes 4 h.1 ++ beBytes 4 h.2.1 ++ beBytes 4 h.2.2.1 ++ beBytes 4 h.2.2.2.1 ++ beBytes 4 h.2.2.2.2

def hexChars : Str := lit "0123456789abcdef"

def byteHex (b : Nat) : Str := [hexChars.getD (b / 16) '0', hexChars.getD (b % 16) '0']

/-- `hashlib.sha1(bytes).hexdigest()`. -/
def sha1hex (msg : List Nat) : Str := ((sha1bytes msg).map byteHex).flatten

/-- `hashlib.sha1(key.encode()).hexdigest()[:8]` — the hash fragment the
script uses both in `mask_key` and for the output directory name. -/
def sha1hex8 (key : Str) : Str := (sha1hex (utf8 key)).take 8

/-- `mask_key` from the source: `f"{key[:4]}…{key[-4:]} ({h})"`. -/
def mask_key (key : Str) : Str :=
  key.take 4 ++ '…' :: (key.drop (key.length - 4)) ++ ' ' :: '(' :: (sha1hex8 key ++ [')'])

/-! ### HTTP model -/

/-- Values of query parameters, as passed to `session.get/post(params=...)`. -/
inductive PVal where
  | pstr (s : Str)
  | pnat (n : Nat)
  | pbool (b : Bool)
  | pjson (v : JsonVal)

/-- Contents written to (or uploaded from) a file. -/
inductive FileContent where
  | csvRows (rows : List (List Str))
  | imgBytes (bs : List Nat)

abbrev FsPath := List Str

/-- An HTTP request the script can issue. -/
structure Request where
  method : Str
  url : Str
  params : List (Str × PVal)
  jsonBody : Option JsonVal
  fileBody : Option FileContent

/-- What the network does with one request: a transport-level exception, or a
response with a status code, headers, body bytes, and — when the body parses
as JSON — the parsed value. -/
inductive HttpOutcome where
  | exn
  | resp (code : Nat) (headers : List (Str × Str)) (content : List Nat) (json : Option JsonVal)

abbrev Env := Request → HttpOutcome

/-- `fetch_json` from the source: status and parsed body, or `(None, {})` on
any exception (transport failure or a body that fails to parse). -/
def fetch_json (env : Env) (req : Request) : Option Nat × JsonVal :=
  match env req with
  | .exn => (none, .obj [])
  | .resp _ _ _ none => (none, .obj [])
  | .resp code _ _ (some js) => (some code, js)

/-- `fetch_image` from the source: on HTTP 200 writes the body to `dest` and
returns `(True, 200, headers)`; on another code `(False, code, headers)`; on a
transport exception `(False, None, {})`.  The second component of the result
is the list of file writes performed. -/
def fetch_image (env : Env) (req : Request) (dest : FsPath) :
    (Bool × Option Nat × List (Str × Str)) × List (FsPath × FileContent) :=
  match env req with
  | .exn => ((false, none, []), [])
  | .resp code hdrs content _ =>
      if code = 200 then ((true, some code, hdrs), [(dest, .imgBytes content)])
      else ((false, some code, hdrs), [])

/-- The side effects of a (possibly crashing) run: requests issued and files
written, in order. -/
structure Trace where
  reqs : List Request
  files : List (FsPath × FileContent)

def Trace.nil : Trace := ⟨[], []⟩

def Trace.app (t₁ t₂ : Trace) : Trace := ⟨t₁.reqs ++ t₂.reqs, t₁.files ++ t₂.files⟩

/-! ### The orchestrator state and the fifteen probes -/

/-- One row of the aggregated results mapping:
`{"http": code, "info": ..., "raw": ...}`. -/
structure Outcome where
  http : Option Nat
  info : JsonVal
  raw : JsonVal

/-- The mutable locals of `test_key_place`: the results dict and the derived
coordinates / place identifier. -/
structure St where
  results : List (Str × Outcome)
  geo : Option Str
  pid : Option JsonVal

/-- Python dict assignment `d[k] = v` (update in place or append). -/
def dictInsert {α : Type} (kvs : List (Str × α)) (k : Str) (v : α) : List (Str × α) :=
  match kvs with
  | [] => [(k, v)]
  | (k₁, v₁) :: tl => if k₁ = k then (k, v) :: tl else (k₁, v₁) :: dictInsert tl k v

/-- Truthiness of the `geo` local (`None` or a `str`). -/
def geoGate (g : Option Str) : Bool :=
  match g with
  | some s => !s.isEmpty
  | none => false

/-- Truthiness of the `pid` local (`None` or a JSON value). -/
def pidGate (p : Option JsonVal) : Bool :=
  match p with
  | some v => truthy v
  | none => false

inductive Service where
  | geocode | batchgeocode | staticmap | streetview | photoreference
  | placedetails | textsearch | distancematrix | elevation | timezone
  | nearbysearch | autocomplete | snaptoroads | nearestroads | geolocate
  deriving DecidableEq, Repr

def svcName : Service → Str
  | .geocode => lit "geocode"
  | .batchgeocode => lit "batchgeocode"
  | .staticmap => lit "staticmap"
  | .streetview => lit "streetview"
  | .photoreference => lit "photoreference"
  | .placedetails => lit "placedetails"
  | .textsearch => lit "textsearch"
  | .distancematrix => lit "distancematrix"
  | .elevation => lit "elevation"
  | .timezone => lit "timezone"
  | .nearbysearch => lit "nearbysearch"
  | .autocomplete => lit "autocomplete"
  | .snaptoroads => lit "snaptoroads"
  | .nearestroads => lit "nearestroads"
  | .geolocate => lit "geolocate"

/-- The fixed probe order of the `SERVICES` list. -/
def SERVICES : List Service :=
  [.geocode, .batchgeocode, .staticmap, .streetview, .photoreference,
   .placedetails, .textsearch, .distancematrix, .elevation, .timezone,
   .nearbysearch, .autocomplete, .snaptoroads, .nearestroads, .geolocate]

/-! ### `str.strip` and `str.split` -/

/-- The whitespace characters `str.strip()` / `str.split()` use (ASCII). -/
def pySpace (c : Char) : Bool :=
  c = ' ' || c = '\t' || c = '\n' || c = '\r' || c = '\x0b' || c = '\x0c'

/-- Python `s.strip()`. -/
def pyStrip (s : Str) : Str :=
  ((s.dropWhile pySpace).reverse.dropWhile pySpace).reverse

/-- Worker for `pySplit`: `cur` holds the current token, reversed. -/
def pySplitAux : Str → Str → List Str
  | [], cur => if cur = [] then [] else [cur.reverse]
  | c :: tl, cur =>
      if pySpace c then
        if cur = [] then pySplitAux tl []
        else cur.reverse :: pySplitAux tl []
      else pySplitAux tl (c :: cur)

/-- Python `s.split()` (no argument): maximal runs of non-whitespace. -/
def pySplit (s : Str) : List Str := pySplitAux s []

/-! ### Requests built by each probe (line-for-line from the source) -/

def geocodeReq (key place : Str) : Request :=
  ⟨lit "get", lit "https://maps.googleapis.com/maps/api/geocode/json",
   [(lit "address", .pstr place), (lit "key", .pstr key)], none, none⟩

def batchgeocodeReq (key place : Str) : Request :=
  ⟨lit "post", lit "https://maps.googleapis.com/maps/api/geocode/batch/json",
   [(lit "key", .pstr key)], none, some (.csvRows [[lit "address"], [place]])⟩

def staticmapReq (key g : Str) : Request :=
  ⟨lit "get", lit "https://maps.googleapis.com/maps/api/staticmap",
   [(lit "center", .pstr g), (lit "zoom", .pnat 7), (lit "size", .pstr (lit "400x400")),
    (lit "key", .pstr key)], none, none⟩

def streetviewReq (key g : Str) : Request :=
  ⟨lit "get", lit "https://maps.googleapis.com/maps/api/streetview",
   [(lit "location", .pstr g), (lit "size", .pstr (lit "400x400")), (lit "key", .pstr key)],
   none, none⟩

def photoreferenceReq (key place : Str) : Request :=
  ⟨lit "get", lit "https://maps.googleapis.com/maps/api/place/findplacefromtext/json",
   [(lit "input", .pstr place), (lit "inputtype", .pstr (lit "textquery")),
    (lit "fields", .pstr (lit "photos")), (lit "key", .pstr key)], none, none⟩

def placedetailsReq (key : Str) (pid : JsonVal) : Request :=
  ⟨lit "get", lit "https://maps.googleapis.com/maps/api/place/details/json",
   [(lit "place_id", .pjson pid), (lit "key", .pstr key)], none, none⟩

def textsearchReq (key place : Str) : Request :=
  ⟨lit "get", lit "https://maps.googleapis.com/maps/api/place/textsearch/json",
   [(lit "query", .pstr place), (lit "key", .pstr key)], none, none⟩

def distancematrixReq (key g : Str) : Request :=
  ⟨lit "get", lit "https://maps.googleapis.com/maps/api/distancematrix/json",
   [(lit "origins", .pstr g), (lit "destinations", .pstr g), (lit "key", .pstr key)],
   none, none⟩

def elevationReq (key g : Str) : Request :=
  ⟨lit "get", lit "https://maps.googleapis.com/maps/api/elevation/json",
   [(lit "locations", .pstr g), (lit "key", .pstr key)], none, none⟩

def timezoneReq (key g : Str) (ts : Nat) : Request :=
  ⟨lit "get", lit "https://maps.googleapis.com/maps/api/timezone/json",
   [(lit "location", .pstr g), (lit "timestamp", .pnat ts), (lit "key", .pstr key)],
   none, none⟩

def nearbysearchReq (key g : Str) : Request :=
  ⟨lit "get", lit "https://maps.googleapis.com/maps/api/place/nearbysearch/json",
   [(lit "location", .pstr g), (lit "radius", .pnat 1000),
    (lit "type", .pstr (lit "restaurant")), (lit "key", .pstr key)], none, none⟩

def autocompleteReq (key tok : Str) : Request :=
  ⟨lit "get", lit "https://maps.googleapis.com/maps/api/place/autocomplete/json",
   [(lit "input", .pstr tok), (lit "types", .pstr (lit "geocode")), (lit "key", .pstr key)],
   none, none⟩

def snaptoroadsReq (key g : Str) : Request :=
  ⟨lit "get", lit "https://roads.googleapis.com/v1/snapToRoads",
   [(lit "path", .pstr (g ++ '|' :: g)), (lit "interpolate", .pbool true),
    (lit "key", .pstr key)], none, none⟩

def nearestroadsReq (key g : Str) : Request :=
  ⟨lit "get", lit "https://roads.googleapis.com/v1/nearestRoads",
   [(lit "points", .pstr g), (lit "key", .pstr key)], none, none⟩

def geolocateReq (key : Str) : Request :=
  ⟨lit "post", lit "https://www.googleapis.com/geolocation/v1/geolocate",
   [(lit "key", .pstr key)], some (.obj [(lit "considerIp", .boolv true)]), none⟩

/-! ### Probe bodies -/

/-- The `geocode` branch of `test_key_place`. -/
def geocodeStep (env : Env) (key place : Str) (st : St) : Trace × PyM St :=
  let req := geocodeReq key place
  let cj := fetch_json env req
  (⟨[req], []⟩, do
    let stv ← jget cj.2 (lit "status") .null
    if eqStr stv (lit "OK") then do
      let rs ← jsubs cj.2 (lit "results")
      let r0 ← jsubi rs 0
      let addr ← jsubs r0 (lit "formatted_address")
      let results1 := dictInsert st.results (lit "geocode") ⟨cj.1, addr, cj.2⟩
      let geom ← jsubs r0 (lit "geometry")
      let locv ← jsubs geom (lit "location")
      let latv ← jsubs locv (lit "lat")
      let lngv ← jsubs locv (lit "lng")
      let g := pyStr latv ++ ',' :: pyStr lngv
      let pidv ← jsubs r0 (lit "place_id")
      pure { results := results1, geo := some g, pid := some pidv }
    else pure st)

/-- Insert the outcome a probe body decided to record (if any) under `name`.
Factoring the `results[name] = {...}` assignment out of each branch. -/
def recordWith (name : Str) (st : St) (body : PyM (Option Outcome)) : PyM St :=
  body.map (fun oo =>
    match oo with
    | some o => { st with results := dictInsert st.results name o }
    | none => st)

/-- The `batchgeocode` branch body: records unconditionally; the info string is
`""` on HTTP 200 and `js.get("status", "")` otherwise. -/
def batchgeocodeBody (cj : Option Nat × JsonVal) : PyM (Option Outcome) := do
  let info ← if cj.1 = some 200 then pure (JsonVal.strv []) else jget cj.2 (lit "status") (.strv [])
  pure (some (Outcome.mk cj.1 info cj.2))

/-- Shared body of the two binary probes: record only when `fetch_image`
succeeded, summarising content type and size from the headers. -/
def imageBody (r : Bool × Option Nat × List (Str × Str)) : PyM (Option Outcome) := do
  if r.1 then do
    let cl ← match alook r.2.2 (lit "Content-Length") with
             | some s => pyIntOfStr s
             | none => pure 0
    let sz := Int.fdiv cl 1024
    let ct := (alook r.2.2 (lit "Content-Type")).getD []
    let info := ct ++ lit ", " ++ intStr sz ++ lit "KB"
    let rawh := JsonVal.obj (r.2.2.map (fun p => (p.1, .strv p.2)))
    pure (some (Outcome.mk r.2.1 (.strv info) rawh))
  else pure none

/-- The `photoreference` branch body: `cands[0]` and the `in` test run only
when `cands` is truthy (Python short-circuit). -/
def photoreferenceBody (cj : Option Nat × JsonVal) : PyM (Option Outcome) := do
  let cands ← jget cj.2 (lit "candidates") (.arr [])
  if truthy cands then do
    let c0 ← jsubi cands 0
    let b ← pyIn (lit "photos") c0
    if b then do
      let ph ← jsubs c0 (lit "photos")
      let p0 ← jsubi ph 0
      let ref ← jget p0 (lit "photo_reference") (.strv [])
      pure (some (Outcome.mk cj.1 ref cj.2))
    else pure none
  else pure none

/-- The `placedetails` branch body. -/
def placedetailsBody (cj : Option Nat × JsonVal) : PyM (Option Outcome) := do
  let stv ← jget cj.2 (lit "status") .null
  if eqStr stv (lit "OK") then do
    let r ← jsubs cj.2 (lit "result")
    let nm ← jget r (lit "name") (.strv [])
    pure (some (Outcome.mk cj.1 nm cj.2))
  else pure none

/-- Shared body of `textsearch` and `nearbysearch`: the two branches extract
the same way (`js.get("results")` truthy, then `results[0].get("name", "")`). -/
def firstResultNameBody (cj : Option Nat × JsonVal) : PyM (Option Outcome) := do
  let rs ← jget cj.2 (lit "results") .null
  if truthy rs then do
    let r0 ← jsubi rs 0
    let nm ← jget r0 (lit "name") (.strv [])
    pure (some (Outcome.mk cj.1 nm cj.2))
  else pure none

/-- The `distancematrix` branch body. -/
def distancematrixBody (cj : Option Nat × JsonVal) : PyM (Option Outcome) := do
  let rows ← jget cj.2 (lit "rows") (.arr [])
  if truthy rows then do
    let r0a ← jsubi rows 0
    let elsG ← jget r0a (lit "elements") (.arr [])
    if truthy elsG then do
      let r0b ← jsubi rows 0
      let elsS ← jsubs r0b (lit "elements")
      let el ← jsubi elsS 0
      let hasD ← pyIn (lit "distance") el
      if hasD then do
        let dv ← jsubs el (lit "distance")
        let d ← jsubs dv (lit "text")
        let tv ← jsubs el (lit "duration")
        let t ← jsubs tv (lit "text")
        let info := pyStr d ++ lit ", " ++ pyStr t
        pure (some (Outcome.mk cj.1 (.strv info) cj.2))
      else pure none
    else pure none
  else pure none

/-- The `elevation` branch body. -/
def elevationBody (cj : Option Nat × JsonVal) : PyM (Option Outcome) := do
  let rs ← jget cj.2 (lit "results") (.arr [])
  if truthy rs then do
    let r0 ← jsubi rs 0
    let e ← jget r0 (lit "elevation") (.strv [])
    let info := pyStr e ++ ['m']
    pure (some (Outcome.mk cj.1 (.strv info) cj.2))
  else pure none

/-- The `timezone` branch body. -/
def timezoneBody (cj : Option Nat × JsonVal) : PyM (Option Outcome) := do
  let tz ← jget cj.2 (lit "timeZoneId") (.strv [])
  if truthy tz then pure (some (Outcome.mk cj.1 tz cj.2))
  else pure none

/-- The `autocomplete` branch body. -/
def autocompleteBody (cj : Option Nat × JsonVal) : PyM (Option Outcome) := do
  let preds ← jget cj.2 (lit "predictions") (.arr [])
  if truthy preds then do
    let p0 ← jsubi preds 0
    let desc ← jget p0 (lit "description") (.strv [])
    pure (some (Outcome.mk cj.1 desc cj.2))
  else pure none

/-- Shared body of the two roads probes. -/
def roadsBody (cj : Option Nat × JsonVal) : PyM (Option Outcome) := do
  let sp ← jget cj.2 (lit "snappedPoints") (.arr [])
  let pts ← pyLen sp
  if pts ≠ 0 then do
    let info := natStr pts ++ lit " points"
    pure (some (Outcome.mk cj.1 (.strv info) cj.2))
  else pure none

/-- The `geolocate` branch body: records an entry unconditionally. -/
def geolocateBody (cj : Option Nat × JsonVal) : PyM (Option Outcome) := do
  let loc ← jget cj.2 (lit "location") (.obj [])
  let latv ← jget loc (lit "lat") .null
  let info ← match latv with
    | .null => do
        let dflt ← jget cj.2 (lit "status") (.strv (lit "UNKNOWN"))
        jget cj.2 (lit "error") dflt
    | _ => do
        let lat1 ← jsubs loc (lit "lat")
        let lng1 ← jsubs loc (lit "lng")
        pure (JsonVal.strv (pyStr lat1 ++ ',' :: pyStr lng1))
  pure (some (Outcome.mk cj.1 info cj.2))

/-- What one loop iteration decides to do before recording: skip (unmet
prerequisite), raise (the autocomplete indexing on a token-less place), or
issue one request — after writing `files` — and run the branch's extraction
body on the fetched answer. -/
inductive StepPlan where
  | skip
  | raise (e : PyErr)
  | run (req : Request) (files : List (FsPath × FileContent)) (body : PyM (Option Outcome))

/-- Execute a probe's plan: the trace it leaves and the state it produces. -/
def runPlan (name : Str) (st : St) : StepPlan → Trace × PyM St
  | .skip => (Trace.nil, pure st)
  | .raise e => (Trace.nil, throw e)
  | .run req files body => (⟨[req], files⟩, recordWith name st body)

/-- The plan of each non-geocode branch of the `elif` chain, line-for-line
from the source: the gating on `geo` / `pid`, the request parameters, the
files written, and the extraction body. -/
def svcPlan (env : Env) (ts : Nat) (key place : Str) (out_root : FsPath) :
    Service → St → StepPlan
  | .geocode, _ => .skip
  | .batchgeocode, _ =>
      .run (batchgeocodeReq key place)
        [(out_root ++ [lit "batch.csv"], .csvRows [[lit "address"], [place]])]
        (batchgeocodeBody (fetch_json env (batchgeocodeReq key place)))
  | .staticmap, st =>
      match st.geo, geoGate st.geo with
      | some g, true =>
          let p := fetch_image env (staticmapReq key g) (out_root ++ [lit "staticmap.png"])
          .run (staticmapReq key g) p.2 (imageBody p.1)
      | _, _ => .skip
  | .streetview, st =>
      match st.geo, geoGate st.geo with
      | some g, true =>
          let p := fetch_image env (streetviewReq key g) (out_root ++ [lit "streetview.jpg"])
          .run (streetviewReq key g) p.2 (imageBody p.1)
      | _, _ => .skip
  | .photoreference, st =>
      if pidGate st.pid then
        .run (photoreferenceReq key place) []
          (photoreferenceBody (fetch_json env (photoreferenceReq key place)))
      else .skip
  | .placedetails, st =>
      match st.pid, pidGate st.pid with
      | some pidv, true =>
          .run (placedetailsReq key pidv) []
            (placedetailsBody (fetch_json env (placedetailsReq key pidv)))
      | _, _ => .skip
  | .textsearch, _ =>
      .run (textsearchReq key place) []
        (firstResultNameBody (fetch_json env (textsearchReq key place)))
  | .distancematrix, st =>
      match st.geo, geoGate st.geo with
      | some g, true =>
          .run (distancematrixReq key g) []
            (distancematrixBody (fetch_json env (distancematrixReq key g)))
      | _, _ => .skip
  | .elevation, st =>
      match st.geo, geoGate st.geo with
      | some g, true =>
          .run (elevationReq key g) [] (elevationBody (fetch_json env (elevationReq key g)))
      | _, _ => .skip
  | .timezone, st =>
      match st.geo, geoGate st.geo with
      | some g, true =>
          .run (timezoneReq key g ts) [] (timezoneBody (fetch_json env (timezoneReq key g ts)))
      | _, _ => .skip
  | .nearbysearch, st =>
      match st.geo, geoGate st.geo with
      | some g, true =>
          .run (nearbysearchReq key g) []
            (firstResultNameBody (fetch_json env (nearbysearchReq key g)))
      | _, _ => .skip
  | .autocomplete, _ =>
      match pySplit place with
      | [] => .raise .indexError
      | tok :: _ =>
          .run (autocompleteReq key tok) []
            (autocompleteBody (fetch_json env (autocompleteReq key tok)))
  | .snaptoroads, st =>
      match st.geo, geoGate st.geo with
      | some g, true =>
          .run (snaptoroadsReq key g) [] (roadsBody (fetch_json env (snaptoroadsReq key g)))
      | _, _ => .skip
  | .nearestroads, st =>
      match st.geo, geoGate st.geo with
      | some g, true =>
          .run (nearestroadsReq key g) [] (roadsBody (fetch_json env (nearestroadsReq key g)))
      | _, _ => .skip
  | .geolocate, _ =>
      .run (geolocateReq key) [] (geolocateBody (fetch_json env (geolocateReq key)))

/-- One iteration of the `for svc in SERVICES` loop: the geocode branch (the
only one that derives state), or a planned probe. -/
def svcStep (env : Env) (ts : Nat) (key place : Str) (out_root : FsPath) :
    Service → St → Trace × PyM St
  | .geocode, st => geocodeStep env key place st
  | s, st => runPlan (svcName s) st (svcPlan env ts key place out_root s st)

/-- Run a list of probes in order, accumulating the trace; an uncaught
exception aborts the remaining probes but keeps the trace so far. -/
def runSvcs (env : Env) (ts : Nat) (key place : Str) (out_root : FsPath) :
    List Service → St → Trace × PyM St
  | [], st => (Trace.nil, pure st)
  | s :: rest, st =>
      let p₁ := svcStep env ts key place out_root s st
      match p₁.2 with
      | .error e => (p₁.1, .error e)
      | .ok st₁ =>
          let p₂ := runSvcs env ts key place out_root rest st₁
          (p₁.1.app p₂.1, p₂.2)

/-- `test_key_place` from the source: runs the fifteen probes and returns the
results mapping (plus, in the model, the trace of side effects). -/
def test_key_place (env : Env) (ts : Nat) (key place : Str) (out_root : FsPath) :
    Trace × PyM (List (Str × Outcome)) :=
  let p := runSvcs env ts key place out_root SERVICES ⟨[], none, none⟩
  (p.1, p.2.map St.results)

/-- How a run of `main` ends: early `sys.exit(1)` on empty input (process
status 1), a printed report (status 0), or an uncaught exception (status 1). -/
inductive MainOut where
  | earlyExit
  | report (results : List (Str × Outcome))
  | crashed (e : PyErr)

def exitCode : MainOut → Nat
  | .earlyExit => 1
  | .report _ => 0
  | .crashed _ => 1

/-- `main` from the source (Lean reserves the name `main`, hence `mainProg`):
strip both inputs, bail out on an empty one,
otherwise run `test_key_place` under `output/<first-8-hex-of-sha1(key)>` and
print the table. -/
def mainProg (rawKey rawPlace : Str) (env : Env) (ts : Nat) : MainOut × Trace :=
  let key := pyStrip rawKey
  let place := pyStrip rawPlace
  if key = [] ∨ place = [] then (.earlyExit, Trace.nil)
  else
    let out_root : FsPath := [lit "output", sha1hex8 key]
    let p := test_key_place env ts key place out_root
    match p.2 with
    | .ok rs => (.report rs, p.1)
    | .error e => (.crashed e, p.1)

/-! ### Spec-side helpers and basic lemmas -/

/-- Evaluate a predicate under a successful run (false on a crashed run). -/
def okAnd (p : PyM (List (Str × Outcome))) (f : List (Str × Outcome) → Bool) : Bool :=
  match p with
  | .ok rs => f rs
  | .error _ => false

theorem alook_dictInsert_self {α : Type} (kvs : List (Str × α)) (k : Str) (v : α) :
    alook (dictInsert kvs k v) k = some v := by
  induction kvs with
  | nil => simp [dictInsert, alook]
  | cons h t ih =>
      rcases h with ⟨k₁, v₁⟩
      by_cases hk : k₁ = k <;> simp [dictInsert, alook, hk, ih]

theorem alook_dictInsert_ne {α : Type} (kvs : List (Str × α)) (k m : Str) (v : α)
    (h : m ≠ k) : alook (dictInsert kvs k v) m = alook kvs m := by
  have hne : ¬(k = m) := fun hh => h hh.symm
  induction kvs with
  | nil => simp [dictInsert, alook, hne]
  | cons hd t ih =>
      rcases hd with ⟨k₁, v₁⟩
      by_cases hk : k₁ = k
      · subst hk
        simp [dictInsert, alook, hne]
      · simp [dictInsert, alook, hk, ih]

theorem recordWith_ok {name : Str} {st : St} {body : PyM (Option Outcome)} {st' : St}
    (h : recordWith name st body = .ok st') :
    st'.geo = st.geo ∧ st'.pid = st.pid ∧
      ((body = .ok none ∧ st' = st) ∨
       ∃ o, body = .ok (some o) ∧ st'.results = dictInsert st.results name o) := by
  cases body with
  | error e => simp [recordWith, Except.map] at h
  | ok oo =>
      cases oo with
      | none =>
          simp [recordWith, Except.map] at h
          subst h
          exact ⟨rfl, rfl, Or.inl ⟨rfl, rfl⟩⟩
      | some o =>
          simp [recordWith, Except.map] at h
          subst h
          exact ⟨rfl, rfl, Or.inr ⟨o, rfl, rfl⟩⟩

theorem recordWith_frame {name : Str} {st : St} {body : PyM (Option Outcome)} {st' : St}
    (h : recordWith name st body = .ok st') (m : Str) (hm : m ≠ name) :
    alook st'.results m = alook st.results m := by
  rcases recordWith_ok h with ⟨-, -, hc⟩
  rcases hc with ⟨-, rfl⟩ | ⟨o, -, hres⟩
  · rfl
  · rw [hres, alook_dictInsert_ne _ _ _ _ hm]

theorem recordWith_recorded {name : Str} {st : St} {body : PyM (Option Outcome)} {st' : St}
    (h : recordWith name st body = .ok st')
    (hrec : alook st'.results name ≠ alook st.results name) :
    ∃ o, body = .ok (some o) ∧ alook st'.results name = some o := by
  rcases recordWith_ok h with ⟨-, -, hc⟩
  rcases hc with ⟨-, rfl⟩ | ⟨o, hb, hres⟩
  · exact absurd rfl hrec
  · exact ⟨o, hb, by rw [hres, alook_dictInsert_self]⟩

/-! ### Claim C8: fetch_json / fetch_image convert exceptions, never propagate -/

/-- C8: for every request issued through `fetch_json` or `fetch_image`, a
transport-level exception — and, for `fetch_json`, a body that fails to parse
as JSON — is converted to an absent status with an empty body
(`(None, {})` resp. `(False, None, {})`, with no file written), and, the
functions being total, no exception propagates out of them. -/
theorem c8_fetch_converts_exceptions (env : Env) (req : Request) (dest : FsPath) :
    (env req = .exn →
      fetch_json env req = (none, .obj []) ∧
      fetch_image env req dest = ((false, none, []), [])) ∧
    (∀ code hdrs cnt, env req = .resp code hdrs cnt none →
      fetch_json env req = (none, .obj [])) := by
  constructor
  · intro h
    rw [fetch_json, fetch_image, h]
    exact ⟨rfl, rfl⟩
  · intro code hdrs cnt h
    rw [fetch_json, h]

/-- Witness for C8 at a concrete failing environment. -/
theorem c8_fetch_converts_exceptions_witness :
    fetch_json (fun _ => .exn) (geocodeReq (lit "K") (lit "P")) = (none, .obj []) ∧
    fetch_image (fun _ => .exn) (geocodeReq (lit "K") (lit "P")) [] = ((false, none, []), []) :=
  (c8_fetch_converts_exceptions (fun _ => .exn) (geocodeReq (lit "K") (lit "P")) []).1 rfl

/-! ### Claim C5: mask_key -/

theorem beBytes_length (k n : Nat) : (beBytes k n).length = k := by
  induction k generalizing n with
  | zero => rfl
  | succ j ih => simp [beBytes, ih]

theorem sha1bytes_length (msg : List Nat) : (sha1bytes msg).length = 20 := by
  simp [sha1bytes, beBytes_length]

theorem flatten_map_byteHex_length (l : List Nat) :
    ((l.map byteHex).flatten).length = 2 * l.length := by
  induction l with
  | nil => rfl
  | cons b t ih => simp [byteHex, ih]; ring

theorem sha1hex_length (msg : List Nat) : (sha1hex msg).length = 40 := by
  rw [sha1hex, flatten_map_byteHex_length, sha1bytes_length]

theorem sha1hex8_length (key : Str) : (sha1hex8 key).length = 8 := by
  rw [sha1hex8, List.length_take, sha1hex_length]
  decide

theorem hexChars_getD_mem (i : Nat) : hexChars.getD i '0' ∈ hexChars := by
  by_cases hi : i < hexChars.length
  · rw [List.getD_eq_getElem _ _ hi]
    exact List.getElem_mem hi
  · rw [List.getD_eq_default _ _ (Nat.le_of_not_lt hi)]
    decide

theorem sha1hex8_mem_hexChars (key : Str) (c : Char) (hc : c ∈ sha1hex8 key) :
    c ∈ hexChars := by
  have h1 : c ∈ sha1hex (utf8 key) := List.mem_of_mem_take hc
  rw [sha1hex] at h1
  rcases List.mem_flatten.mp h1 with ⟨l, hl, hcl⟩
  rcases List.mem_map.mp hl with ⟨b, -, rfl⟩
  simp only [byteHex, List.mem_cons, List.not_mem_nil, or_false] at hcl
  rcases hcl with rfl | rfl
  · exact hexChars_getD_mem _
  · exact hexChars_getD_mem _

/-- If `key` occurs inside `A ++ c :: B` and `c` does not occur in `key`,
then `key` occurs inside `A` or inside `B`. -/
theorem infix_split_at {α : Type} {key A B : List α} {c : α}
    (h : key <:+: A ++ c :: B) (hc : c ∉ key) : key <:+: A ∨ key <:+: B := by
  rcases h with ⟨s, t, hst⟩
  rw [List.append_assoc] at hst
  rcases List.append_eq_append_iff.mp hst with ⟨a', hA, hb⟩ | ⟨c', hs, hd⟩
  · rcases List.append_eq_append_iff.mp hb with ⟨k', ha', -⟩ | ⟨c', hkey, hd⟩
    · left
      exact ⟨s, k', by rw [hA, ha', List.append_assoc]⟩
    · cases c' with
      | nil =>
          left
          refine ⟨s, [], ?_⟩
          simp only [List.append_nil] at hkey
          rw [hA, hkey]
          simp
      | cons x c'' =>
          simp only [List.cons_append, List.cons.injEq] at hd
          exfalso
          exact hc (by rw [hkey, hd.1]; simp)
  · cases c' with
    | nil =>
        simp only [List.nil_append] at hd
        cases key with
        | nil => exact Or.inl ⟨[], A, by simp⟩
        | cons k ks =>
            exfalso
            simp only [List.cons_append, List.cons.injEq] at hd
            exact hc (by rw [hd.1]; simp)
    | cons x c'' =>
        right
        simp only [List.cons_append, List.cons.injEq] at hd
        exact ⟨c'', t, by rw [List.append_assoc, hd.2]⟩

/-- C5 counterexample: for the non-empty key `"ab"`, the masked display
`"ab…ab (da23614e)"` contains the full key as a substring, contradicting the
claim that it never does. -/
theorem c5_counterexample :
    (lit "ab") ≠ [] ∧ (lit "ab") <:+: mask_key (lit "ab") := by
  exact ⟨by decide, by decide⟩

/-- C5 (amended): for every non-empty key, the masked display is the key's
first four and last four characters separated by an ellipsis, followed by the
first 8 hex characters of the key's SHA-1 in parentheses; and — provided the
key has at least 9 characters and contains none of `…`, space, `(`, `)` — the
display does not contain the full key as a substring (for shorter keys, or
keys containing those separator characters, it can: see the counterexample). -/
theorem c5_mask_key_amended (key : Str) (hk : key ≠ []) :
    mask_key key =
      key.take 4 ++ '…' :: (key.drop (key.length - 4)) ++ ' ' :: '(' :: (sha1hex8 key ++ [')']) ∧
    (sha1hex8 key).length = 8 ∧
    (∀ c ∈ sha1hex8 key, c ∈ hexChars) ∧
    (9 ≤ key.length → (∀ c ∈ key, c ≠ '…' ∧ c ≠ ' ' ∧ c ≠ '(' ∧ c ≠ ')') →
      ¬ key <:+: mask_key key) := by
  refine ⟨rfl, sha1hex8_length key, sha1hex8_mem_hexChars key, ?_⟩
  intro hlen hchars h
  have hmask : mask_key key =
      key.take 4 ++ '…' ::
        ((key.drop (key.length - 4)) ++ ' ' :: ('(' :: (sha1hex8 key ++ [')']))) := by
    simp [mask_key, List.append_assoc]
  rw [hmask] at h
  have hlt : ¬ key.length ≤ 4 := by omega
  rcases infix_split_at h (fun hmem => (hchars _ hmem).1 rfl) with h₁ | h₁
  · exact hlt (le_trans h₁.length_le (by rw [List.length_take]; omega))
  · rcases infix_split_at h₁ (fun hmem => (hchars _ hmem).2.1 rfl) with h₂ | h₂
    · exact hlt (le_trans h₂.length_le (by rw [List.length_drop]; omega))
    · have h₂' : key <:+: ([] : Str) ++ '(' :: (sha1hex8 key ++ [')']) := by simpa using h₂
      rcases infix_split_at h₂' (fun hmem => (hchars _ hmem).2.2.1 rfl) with h₃ | h₃
      · have := h₃.length_le
        simp only [List.length_nil, Nat.le_zero] at this
        rw [List.length_eq_zero] at this
        exact hk this
      · have h₃' : key <:+: sha1hex8 key ++ ')' :: ([] : Str) := by simpa using h₃
        rcases infix_split_at h₃' (fun hmem => (hchars _ hmem).2.2.2 rfl) with h₄ | h₄
        · have := h₄.length_le
          rw [sha1hex8_length] at this
          omega
        · have := h₄.length_le
          simp only [List.length_nil, Nat.le_zero] at this
          rw [List.length_eq_zero] at this
          exact hk this

/-- Witness for the amended C5 at the spec's example key `"ABCD1234WXYZ"`. -/
theorem c5_mask_key_amended_witness :
    (lit "ABCD1234WXYZ") ≠ [] ∧ ¬ (lit "ABCD1234WXYZ") <:+: mask_key (lit "ABCD1234WXYZ") :=
  ⟨by decide,
   (c5_mask_key_amended (lit "ABCD1234WXYZ") (by decide)).2.2.2 (by decide) (by decide)⟩

/-! ### A simp kit for the `PyM` monad and the JSON operations -/

instance : Nonempty JsonVal := ⟨.null⟩
instance : Nonempty (List (Str × JsonVal)) := ⟨[]⟩
instance : Nonempty Outcome := ⟨⟨none, .null, .null⟩⟩

@[simp] theorem pym_bind_ok {α β : Type} (a : α) (f : α → PyM β) :
    (Except.ok a : PyM α) >>= f = f a := rfl

@[simp] theorem pym_bind_error {α β : Type} (e : PyErr) (f : α → PyM β) :
    (Except.error e : PyM α) >>= f = Except.error e := rfl

@[simp] theorem pym_pure_def {α : Type} (a : α) : (pure a : PyM α) = Except.ok a := rfl

@[simp] theorem pym_throw_def {α : Type} (e : PyErr) : (throw e : PyM α) = Except.error e := rfl

@[simp] theorem jsubi_arr_cons_zero (x : JsonVal) (tl : List JsonVal) :
    jsubi (.arr (x :: tl)) 0 = Except.ok x := by simp [jsubi]

@[simp] theorem jsubi_strv_cons_zero (c : Char) (tl : Str) :
    jsubi (.strv (c :: tl)) 0 = Except.ok (.strv [c]) := by simp [jsubi]

/-! ### Claim C10: the autocomplete token extraction -/

theorem autocompleteBody_no_indexError (cj : Option Nat × JsonVal) :
    autocompleteBody cj ≠ .error .indexError := by
  intro h
  rcases cj with ⟨code, js⟩
  cases js <;> simp only [autocompleteBody, jget, pym_pure_def, pym_throw_def,
    pym_bind_ok, pym_bind_error] at h
  case null => exact absurd (Except.error.inj h) (by decide)
  case boolv b => exact absurd (Except.error.inj h) (by decide)
  case num tok => exact absurd (Except.error.inj h) (by decide)
  case strv s => exact absurd (Except.error.inj h) (by decide)
  case arr xs => exact absurd (Except.error.inj h) (by decide)
  case obj kvs =>
    generalize hv : (alook kvs (lit "predictions")).getD (JsonVal.arr []) = preds at h
    cases preds with
    | null => simp [truthy] at h
    | boolv b => cases b <;> simp [truthy, jsubi] at h
    | num tok => by_cases hz : numIsZero tok <;> simp [truthy, hz, jsubi] at h
    | obj kvs2 => rcases kvs2 with _ | ⟨p, tl⟩ <;> simp [truthy, jsubi] at h
    | strv s => rcases s with _ | ⟨c, tl⟩ <;> simp [truthy] at h
    | arr xs =>
        rcases xs with _ | ⟨x, tl⟩ <;> simp [truthy] at h
        cases x <;> simp [jget] at h

theorem recordWith_error_iff {name : Str} {st : St} {body : PyM (Option Outcome)} {e : PyErr} :
    recordWith name st body = .error e ↔ body = .error e := by
  cases body with
  | error e' => simp [recordWith, Except.map]
  | ok oo => simp [recordWith, Except.map]

theorem pySplitAux_ne_nil_of_cur (s : Str) : ∀ cur : Str, cur ≠ [] → pySplitAux s cur ≠ [] := by
  induction s with
  | nil =>
      intro cur hc
      rw [pySplitAux, if_neg hc]
      simp
  | cons y tl ih =>
      intro cur hc
      rw [pySplitAux]
      by_cases hy : pySpace y
      · rw [if_pos hy, if_neg hc]
        simp
      · rw [if_neg hy]
        exact ih (y :: cur) (by simp)

theorem pySplitAux_eq_nil {s cur : Str} (h : pySplitAux s cur = []) :
    ∀ c ∈ s, pySpace c := by
  induction s generalizing cur with
  | nil => intro c hc; cases hc
  | cons x tl ih =>
      intro c hc
      rw [pySplitAux] at h
      by_cases hx : pySpace x
      · rcases List.mem_cons.mp hc with rfl | hc
        · exact hx
        · rw [if_pos hx] at h
          by_cases hcur : cur = []
          · rw [if_pos hcur] at h
            exact ih h c hc
          · rw [if_neg hcur] at h
            cases h
      · rw [if_neg hx] at h
        exact absurd h (pySplitAux_ne_nil_of_cur tl (x :: cur) (by simp))

theorem pySplit_ne_nil_of_strip (place : Str) (h : pyStrip place ≠ []) :
    pySplit place ≠ [] := by
  intro hnil
  apply h
  have hall : ∀ c ∈ place, pySpace c := pySplitAux_eq_nil hnil
  have h1 : place.dropWhile pySpace = [] := List.dropWhile_eq_nil_iff.mpr hall
  rw [pyStrip, h1]
  simp [List.dropWhile]

/-- C10: under `main`'s precondition that the place is non-empty after
stripping, `place.split()` is non-empty — so the `[0]` indexing in the
autocomplete branch cannot raise — and the probe's request carries exactly the
first whitespace-delimited token as its `input` parameter. -/
theorem c10_autocomplete_first_token (place : Str) (hp : pyStrip place ≠ []) :
    pySplit place ≠ [] ∧
    ∀ env ts key out_root st,
      (svcStep env ts key place out_root .autocomplete st).1.reqs =
        [autocompleteReq key ((pySplit place).headI)] ∧
      (svcStep env ts key place out_root .autocomplete st).2 ≠
        Except.error PyErr.indexError := by
  have hs := pySplit_ne_nil_of_strip place hp
  refine ⟨hs, ?_⟩
  intro env ts key out_root st
  rcases htok : pySplit place with _ | ⟨tok, rest⟩
  · exact absurd htok hs
  · refine ⟨by simp only [svcStep, svcPlan, htok, runPlan, List.headI], ?_⟩
    simp only [svcStep, svcPlan, htok, runPlan]
    rw [Ne, recordWith_error_iff]
    exact autocompleteBody_no_indexError _

/-- Witness for C10 at `place = "Some Place"`. -/
theorem c10_autocomplete_first_token_witness :
    (svcStep (fun _ => .exn) 0 (lit "K") (lit "Some Place") [] .autocomplete
        ⟨[], none, none⟩).1.reqs =
      [autocompleteReq (lit "K") ((pySplit (lit "Some Place")).headI)] ∧
    (svcStep (fun _ => .exn) 0 (lit "K") (lit "Some Place") [] .autocomplete
        ⟨[], none, none⟩).2 ≠ Except.error PyErr.indexError :=
  (c10_autocomplete_first_token (lit "Some Place") (by decide)).2
    (fun _ => .exn) 0 (lit "K") [] ⟨[], none, none⟩

/-! ### Spec-side views of the run -/

/-- The endpoint URL each probe talks to. -/
def svcUrl : Service → Str
  | .geocode => lit "https://maps.googleapis.com/maps/api/geocode/json"
  | .batchgeocode => lit "https://maps.googleapis.com/maps/api/geocode/batch/json"
  | .staticmap => lit "https://maps.googleapis.com/maps/api/staticmap"
  | .streetview => lit "https://maps.googleapis.com/maps/api/streetview"
  | .photoreference => lit "https://maps.googleapis.com/maps/api/place/findplacefromtext/json"
  | .placedetails => lit "https://maps.googleapis.com/maps/api/place/details/json"
  | .textsearch => lit "https://maps.googleapis.com/maps/api/place/textsearch/json"
  | .distancematrix => lit "https://maps.googleapis.com/maps/api/distancematrix/json"
  | .elevation => lit "https://maps.googleapis.com/maps/api/elevation/json"
  | .timezone => lit "https://maps.googleapis.com/maps/api/timezone/json"
  | .nearbysearch => lit "https://maps.googleapis.com/maps/api/place/nearbysearch/json"
  | .autocomplete => lit "https://maps.googleapis.com/maps/api/place/autocomplete/json"
  | .snaptoroads => lit "https://roads.googleapis.com/v1/snapToRoads"
  | .nearestroads => lit "https://roads.googleapis.com/v1/nearestRoads"
  | .geolocate => lit "https://www.googleapis.com/geolocation/v1/geolocate"

/-- Probes whose branch requires the derived coordinates. -/
def depGeoSvcs : List Service :=
  [.staticmap, .streetview, .distancematrix, .elevation, .timezone,
   .nearbysearch, .snaptoroads, .nearestroads]

/-- Probes whose branch requires the derived place identifier. -/
def depPidSvcs : List Service := [.photoreference, .placedetails]

def depUrls : List Str := (depGeoSvcs ++ depPidSvcs).map svcUrl

def depNames : List Str := (depGeoSvcs ++ depPidSvcs).map svcName

/-- Does an HTTP outcome carry a parsed JSON object whose `status` field is
the string `"OK"`?  (Exactly when the geocode branch enters its success arm
without raising.) -/
def respStatusOK (o : HttpOutcome) : Bool :=
  match o with
  | .resp _ _ _ (some (.obj kvs)) => eqStr ((alook kvs (lit "status")).getD .null) (lit "OK")
  | _ => false

/-- Field access on a JSON object (spec side, total). -/
def jfield (js : JsonVal) (k : Str) : Option JsonVal :=
  match js with
  | .obj kvs => alook kvs k
  | _ => none

/-- First element of a JSON array (spec side, total). -/
def jhead : JsonVal → Option JsonVal
  | .arr (x :: _) => some x
  | _ => none

/-- Status code and parsed JSON body of a response, when both exist. -/
def respParsed (o : HttpOutcome) : Option (Nat × JsonVal) :=
  match o with
  | .resp code _ _ (some js) => some (code, js)
  | _ => none

/-- Spec-side extraction of everything the geocode probe derives from a
successful response: the HTTP code, the parsed body, the first result's
formatted address, the `"lat,lng"` string built from its geometry.location,
and its place identifier.  `none` when the response is not a status-`"OK"`
object of that shape. -/
def geocodeDerived (o : HttpOutcome) : Option (Nat × JsonVal × JsonVal × Str × JsonVal) := do
  let p ← respParsed o
  let stv ← jfield p.2 (lit "status")
  if eqStr stv (lit "OK") then
    let rsv ← jfield p.2 (lit "results")
    let r0 ← jhead rsv
    let addr ← jfield r0 (lit "formatted_address")
    let geom ← jfield r0 (lit "geometry")
    let locv ← jfield geom (lit "location")
    let latv ← jfield locv (lit "lat")
    let lngv ← jfield locv (lit "lng")
    let pidv ← jfield r0 (lit "place_id")
    some (p.1, p.2, addr, pyStr latv ++ ',' :: pyStr lngv, pidv)
  else none

theorem geocodeStep_derived {env : Env} {key place : Str} {code : Nat} {js addr : JsonVal}
    {g : Str} {pidv : JsonVal}
    (h : geocodeDerived (env (geocodeReq key place)) = some (code, js, addr, g, pidv))
    (st : St) :
    geocodeStep env key place st =
      (⟨[geocodeReq key place], []⟩,
       .ok { results := dictInsert st.results (lit "geocode") ⟨some code, addr, js⟩,
             geo := some g, pid := some pidv }) := by
  simp only [geocodeDerived, Option.bind_eq_bind, Option.bind_eq_some] at h
  obtain ⟨⟨c0, js0⟩, hp, h⟩ := h
  obtain ⟨stv, hstv, h⟩ := h
  by_cases hok : eqStr stv (lit "OK") = true
  swap
  · rw [if_neg hok] at h; cases h
  rw [if_pos hok] at h
  simp only [Option.bind_eq_bind, Option.bind_eq_some] at h
  obtain ⟨rsv, hrsv, h⟩ := h
  obtain ⟨r0, hr0, h⟩ := h
  obtain ⟨addr', haddr, h⟩ := h
  obtain ⟨geom, hgeom, h⟩ := h
  obtain ⟨locv, hloc, h⟩ := h
  obtain ⟨latv, hlat, h⟩ := h
  obtain ⟨lngv, hlng, h⟩ := h
  obtain ⟨pidv', hpid, h⟩ := h
  simp only [Option.some.injEq, Prod.mk.injEq] at h
  obtain ⟨rfl, rfl, rfl, rfl, rfl⟩ := h
  rcases ho : env (geocodeReq key place) with _ | ⟨c1, hdrs, cnt, json⟩ <;> rw [ho] at hp <;>
    simp only [respParsed] at hp
  · cases hp
  rcases json with _ | jv
  · cases hp
  simp only [Option.some.injEq, Prod.mk.injEq] at hp
  obtain ⟨rfl, rfl⟩ := hp
  replace hstv : jfield jv (lit "status") = some stv := hstv
  cases jv <;> simp only [jfield] at hstv hrsv <;> try cases hstv
  rename_i kvs
  rcases rsv with _ | b | tok | s | xs | kvs2 <;> simp only [jhead] at hr0 <;> try cases hr0
  rcases xs with _ | ⟨rv, rtl⟩
  · cases hr0
  replace hr0 : some rv = some r0 := hr0
  injection hr0 with hre
  subst hre
  cases rv <;> simp only [jfield] at haddr <;> try cases haddr
  rename_i r0kv
  cases geom <;> simp only [jfield] at hloc <;> try cases hloc
  rename_i geomkv
  cases locv <;> simp only [jfield] at hlat <;> try cases hlat
  rename_i lockv
  simp only [jfield] at hgeom hpid hlng
  rw [geocodeStep]
  simp only [fetch_json, ho]
  simp [jget, jsubs, jsubi, hstv, hok, hrsv, haddr, hgeom, hpid, hloc, hlat, hlng]

/-- When the geocode response has no `"OK"` status object, the geocode branch
either leaves the state untouched or raises; in both cases it issues exactly
its own request and derives nothing. -/
theorem geocodeStep_notOK {env : Env} {key place : Str}
    (h : respStatusOK (env (geocodeReq key place)) = false) (st : St) :
    (geocodeStep env key place st).1 = ⟨[geocodeReq key place], []⟩ ∧
    ((geocodeStep env key place st).2 = .ok st ∨
      ∃ e, (geocodeStep env key place st).2 = .error e) := by
  refine ⟨rfl, ?_⟩
  rw [geocodeStep]
  rcases ho : env (geocodeReq key place) with _ | ⟨c1, hdrs, cnt, json⟩
  · left
    simp [fetch_json, ho, jget, alook, eqStr]
  rcases json with _ | jv
  · left
    simp [fetch_json, ho, jget, alook, eqStr]
  rw [ho] at h
  cases jv with
  | obj kvs =>
      left
      simp only [respStatusOK] at h
      simp [fetch_json, ho, jget, h]
  | null => right; exact ⟨.attrError, by simp [fetch_json, ho, jget]⟩
  | boolv b => right; exact ⟨.attrError, by simp [fetch_json, ho, jget]⟩
  | num tok => right; exact ⟨.attrError, by simp [fetch_json, ho, jget]⟩
  | strv s => right; exact ⟨.attrError, by simp [fetch_json, ho, jget]⟩
  | arr xs => right; exact ⟨.attrError, by simp [fetch_json, ho, jget]⟩

/-! ### Frame lemmas for the orchestrator -/

theorem recordWith_frame_full {name : Str} {st : St} {body : PyM (Option Outcome)} {st' : St}
    (h : recordWith name st body = .ok st') :
    st'.geo = st.geo ∧ st'.pid = st.pid ∧
      ∀ m, m ≠ name → alook st'.results m = alook st.results m :=
  ⟨(recordWith_ok h).1, (recordWith_ok h).2.1, fun m hm => recordWith_frame h m hm⟩

theorem runPlan_frame {name : Str} {st : St} {plan : StepPlan} {st' : St}
    (h : (runPlan name st plan).2 = .ok st') :
    st'.geo = st.geo ∧ st'.pid = st.pid ∧
      ∀ m, m ≠ name → alook st'.results m = alook st.results m := by
  cases plan with
  | skip =>
      obtain rfl : st = st' := Except.ok.inj h
      exact ⟨rfl, rfl, fun _ _ => rfl⟩
  | raise e => cases h
  | run req files body => exact recordWith_frame_full h

theorem svcStep_eq_runPlan (env : Env) (ts : Nat) (key place : Str) (out_root : FsPath)
    (s : Service) (hs : s ≠ .geocode) (st : St) :
    svcStep env ts key place out_root s st =
      runPlan (svcName s) st (svcPlan env ts key place out_root s st) := by
  cases s
  case geocode => exact absurd rfl hs
  all_goals rfl

theorem svcPlan_run_url {env : Env} {ts : Nat} {key place : Str} {out_root : FsPath}
    {s : Service} {st : St} {req : Request} {files : List (FsPath × FileContent)}
    {body : PyM (Option Outcome)}
    (h : svcPlan env ts key place out_root s st = .run req files body) :
    req.url = svcUrl s := by
  cases s <;> simp only [svcPlan] at h <;> (try split at h) <;> (try cases h) <;> rfl

theorem svcStep_reqs_url (env : Env) (ts : Nat) (key place : Str) (out_root : FsPath)
    (s : Service) (hs : s ≠ .geocode) (st : St) :
    ∀ req ∈ (svcStep env ts key place out_root s st).1.reqs, req.url = svcUrl s := by
  intro req hreq
  rw [svcStep_eq_runPlan env ts key place out_root s hs st] at hreq
  rcases hplan : svcPlan env ts key place out_root s st with _ | e | ⟨req2, files, body⟩ <;>
    rw [hplan] at hreq
  · cases hreq
  · cases hreq
  · obtain rfl := List.mem_singleton.mp hreq
    exact svcPlan_run_url hplan

theorem svcStep_frame (env : Env) (ts : Nat) (key place : Str) (out_root : FsPath)
    (s : Service) (hs : s ≠ .geocode) (st : St) :
    ∀ st', (svcStep env ts key place out_root s st).2 = .ok st' →
      st'.geo = st.geo ∧ st'.pid = st.pid ∧
      ∀ m, m ≠ svcName s → alook st'.results m = alook st.results m := by
  intro st' h
  rw [svcStep_eq_runPlan env ts key place out_root s hs st] at h
  exact runPlan_frame h

theorem svcPlan_skip_geo (env : Env) (ts : Nat) (key place : Str) (out_root : FsPath)
    (s : Service) (hsin : s ∈ depGeoSvcs) (st : St) (hg : st.geo = none) :
    svcPlan env ts key place out_root s st = .skip := by
  fin_cases hsin <;> simp [svcPlan, hg]

theorem svcPlan_skip_pid (env : Env) (ts : Nat) (key place : Str) (out_root : FsPath)
    (s : Service) (hsin : s ∈ depPidSvcs) (st : St) (hp : st.pid = none) :
    svcPlan env ts key place out_root s st = .skip := by
  fin_cases hsin <;> simp [svcPlan, hp, pidGate]

theorem svcUrl_not_dep (s : Service) (h1 : s ∉ depGeoSvcs) (h2 : s ∉ depPidSvcs) :
    svcUrl s ∉ depUrls := by
  cases s
  case staticmap => exact absurd (by decide) h1
  case streetview => exact absurd (by decide) h1
  case distancematrix => exact absurd (by decide) h1
  case elevation => exact absurd (by decide) h1
  case timezone => exact absurd (by decide) h1
  case nearbysearch => exact absurd (by decide) h1
  case snaptoroads => exact absurd (by decide) h1
  case nearestroads => exact absurd (by decide) h1
  case photoreference => exact absurd (by decide) h2
  case placedetails => exact absurd (by decide) h2
  all_goals decide

theorem svcName_not_dep (s : Service) (h1 : s ∉ depGeoSvcs) (h2 : s ∉ depPidSvcs) :
    ∀ m ∈ depNames, m ≠ svcName s := by
  cases s
  case staticmap => exact absurd (by decide) h1
  case streetview => exact absurd (by decide) h1
  case distancematrix => exact absurd (by decide) h1
  case elevation => exact absurd (by decide) h1
  case timezone => exact absurd (by decide) h1
  case nearbysearch => exact absurd (by decide) h1
  case snaptoroads => exact absurd (by decide) h1
  case nearestroads => exact absurd (by decide) h1
  case photoreference => exact absurd (by decide) h2
  case placedetails => exact absurd (by decide) h2
  all_goals decide

theorem trace_nil_app (t : Trace) : Trace.nil.app t = t := rfl

theorem runSvcs_cons_error {env : Env} {ts : Nat} {key place : Str} {out_root : FsPath}
    {s : Service} {rest : List Service} {st : St} {e : PyErr}
    (h : (svcStep env ts key place out_root s st).2 = .error e) :
    runSvcs env ts key place out_root (s :: rest) st =
      ((svcStep env ts key place out_root s st).1, .error e) := by
  rw [runSvcs, h]

theorem runSvcs_cons_ok {env : Env} {ts : Nat} {key place : Str} {out_root : FsPath}
    {s : Service} {rest : List Service} {st st₁ : St}
    (h : (svcStep env ts key place out_root s st).2 = .ok st₁) :
    runSvcs env ts key place out_root (s :: rest) st =
      ((svcStep env ts key place out_root s st).1.app
         (runSvcs env ts key place out_root rest st₁).1,
       (runSvcs env ts key place out_root rest st₁).2) := by
  rw [runSvcs, h]

/-- Core of C2: with no derived coordinates or place identifier, a run of any
geocode-free probe list issues no request to a dependent endpoint, leaves
`geo` and `pid` unpopulated, and leaves every dependent probe's results entry
untouched. -/
theorem runSvcs_nogeo (env : Env) (ts : Nat) (key place : Str) (out_root : FsPath)
    (l : List Service) (hl : Service.geocode ∉ l) :
    ∀ st : St, st.geo = none → st.pid = none →
      (∀ req ∈ (runSvcs env ts key place out_root l st).1.reqs, req.url ∉ depUrls) ∧
      (∀ st', (runSvcs env ts key place out_root l st).2 = .ok st' →
        st'.geo = none ∧ st'.pid = none ∧
        ∀ m ∈ depNames, alook st'.results m = alook st.results m) := by
  induction l with
  | nil =>
      intro st hg hp
      refine ⟨fun req h => absurd h (List.not_mem_nil req), fun st' h => ?_⟩
      obtain rfl : st = st' := Except.ok.inj h
      exact ⟨hg, hp, fun m _ => rfl⟩
  | cons s rest ih =>
      intro st hg hp
      have hs : s ≠ .geocode := fun h => hl (by rw [h]; exact List.mem_cons_self _ _)
      have hlrest : Service.geocode ∉ rest := fun h => hl (List.mem_cons_of_mem _ h)
      by_cases hdep : s ∈ depGeoSvcs ∨ s ∈ depPidSvcs
      · have hplan : svcPlan env ts key place out_root s st = .skip := by
          rcases hdep with h | h
          · exact svcPlan_skip_geo env ts key place out_root s h st hg
          · exact svcPlan_skip_pid env ts key place out_root s h st hp
        have hstep : svcStep env ts key place out_root s st = (Trace.nil, .ok st) := by
          rw [svcStep_eq_runPlan env ts key place out_root s hs st, hplan]; rfl
        have h2 : (svcStep env ts key place out_root s st).2 = .ok st := by rw [hstep]
        rw [runSvcs_cons_ok h2, hstep]
        rw [trace_nil_app]
        exact ih hlrest st hg hp
      · push_neg at hdep
        rcases hr1 : (svcStep env ts key place out_root s st).2 with e | st₁
        · rw [runSvcs_cons_error hr1]
          refine ⟨fun req hreq => ?_, fun st' h => absurd h (by simp)⟩
          rw [svcStep_reqs_url env ts key place out_root s hs st req hreq]
          exact svcUrl_not_dep s hdep.1 hdep.2
        · obtain ⟨hgeo1, hpid1, hres1⟩ := svcStep_frame env ts key place out_root s hs st st₁ hr1
          rw [runSvcs_cons_ok hr1]
          obtain ⟨ihreqs, ihres⟩ := ih hlrest st₁ (by rw [hgeo1, hg]) (by rw [hpid1, hp])
          constructor
          · intro req hreq
            rcases List.mem_append.mp hreq with hq | hq
            · rw [svcStep_reqs_url env ts key place out_root s hs st req hq]
              exact svcUrl_not_dep s hdep.1 hdep.2
            · exact ihreqs req hq
          · intro st' h
            obtain ⟨hg', hp', hlk⟩ := ihres st' h
            refine ⟨hg', hp', fun m hm => ?_⟩
            rw [hlk m hm]
            exact hres1 m (svcName_not_dep s hdep.1 hdep.2 m hm)

theorem svcStep_geocode (env : Env) (ts : Nat) (key place : Str) (out_root : FsPath) (st : St) :
    svcStep env ts key place out_root .geocode st = geocodeStep env key place st := rfl

def SERVICES_rest : List Service :=
  [.batchgeocode, .staticmap, .streetview, .photoreference,
   .placedetails, .textsearch, .distancematrix, .elevation, .timezone,
   .nearbysearch, .autocomplete, .snaptoroads, .nearestroads, .geolocate]

theorem SERVICES_eq : SERVICES = Service.geocode :: SERVICES_rest := rfl

/-- C2: if the geocode response does not carry a status-`"OK"` JSON object —
so the geocode probe cannot populate the derived coordinates or the place
identifier — then the whole run issues no request to any dependent endpoint
(static map, street view, distance matrix, elevation, time zone, nearby
search, snap-to-roads, nearest-roads, photo reference, place details), and in
a completed run none of those probes has an outcome entry. -/
theorem c2_dependent_probes_gated (env : Env) (ts : Nat) (key place : Str) (out_root : FsPath)
    (hok : respStatusOK (env (geocodeReq key place)) = false) :
    (∀ req ∈ (test_key_place env ts key place out_root).1.reqs, req.url ∉ depUrls) ∧
    (∀ rs, (test_key_place env ts key place out_root).2 = .ok rs →
      ∀ s, s ∈ depGeoSvcs ∨ s ∈ depPidSvcs → alook rs (svcName s) = none) := by
  obtain ⟨htr, hres⟩ := geocodeStep_notOK hok (⟨[], none, none⟩ : St)
  rw [← svcStep_geocode env ts key place out_root ⟨[], none, none⟩] at htr
  rw [test_key_place, SERVICES_eq]
  rcases hres with hok1 | ⟨e, herr⟩
  · rw [← svcStep_geocode env ts key place out_root ⟨[], none, none⟩] at hok1
    have hok2 : (svcStep env ts key place out_root .geocode ⟨[], none, none⟩).2 =
        .ok (⟨[], none, none⟩ : St) := hok1
    rw [runSvcs_cons_ok hok2]
    obtain ⟨hreqs, hress⟩ :=
      runSvcs_nogeo env ts key place out_root SERVICES_rest (by decide)
        ⟨[], none, none⟩ rfl rfl
    constructor
    · intro req hreq
      rcases List.mem_append.mp hreq with hq | hq
      · rw [htr] at hq
        obtain rfl := List.mem_singleton.mp hq
        have hu : (geocodeReq key place).url = svcUrl .geocode := rfl
        rw [hu]
        decide
      · exact hreqs req hq
    · intro rs hrs s hdep
      rcases hr : (runSvcs env ts key place out_root SERVICES_rest ⟨[], none, none⟩).2
        with e' | st'
      · rw [hr] at hrs; cases hrs
      · rw [hr] at hrs
        obtain rfl : st'.results = rs := Except.ok.inj hrs
        obtain ⟨-, -, hlk⟩ := hress st' hr
        have hmem : svcName s ∈ depNames := by
          rcases hdep with h | h
          · exact List.mem_map_of_mem svcName (List.mem_append_left _ h)
          · exact List.mem_map_of_mem svcName (List.mem_append_right _ h)
        rw [hlk (svcName s) hmem]
        rfl
  · rw [← svcStep_geocode env ts key place out_root ⟨[], none, none⟩] at herr
    rw [runSvcs_cons_error herr]
    constructor
    · intro req hreq
      rw [htr] at hreq
      obtain rfl := List.mem_singleton.mp hreq
      have hu : (geocodeReq key place).url = svcUrl .geocode := rfl
      rw [hu]
      decide
    · intro rs hrs
      cases hrs

/-- Witness for C2 at an all-failing network. -/
theorem c2_dependent_probes_gated_witness :
    (∀ req ∈ (test_key_place (fun _ => .exn) 0 (lit "K") (lit "P") []).1.reqs,
       req.url ∉ depUrls) ∧
    (∀ rs, (test_key_place (fun _ => .exn) 0 (lit "K") (lit "P") []).2 = .ok rs →
      ∀ s, s ∈ depGeoSvcs ∨ s ∈ depPidSvcs → alook rs (svcName s) = none) :=
  c2_dependent_probes_gated (fun _ => .exn) 0 (lit "K") (lit "P") [] (by decide)

theorem svcName_ne_geocode (s : Service) (hs : s ≠ .geocode) : lit "geocode" ≠ svcName s := by
  cases s
  case geocode => exact absurd rfl hs
  all_goals decide

/-- Any geocode-free probe list preserves `geo`, `pid` and the `"geocode"`
results entry. -/
theorem runSvcs_preserves (env : Env) (ts : Nat) (key place : Str) (out_root : FsPath)
    (l : List Service) (hl : Service.geocode ∉ l) :
    ∀ st st', (runSvcs env ts key place out_root l st).2 = .ok st' →
      st'.geo = st.geo ∧ st'.pid = st.pid ∧
      alook st'.results (lit "geocode") = alook st.results (lit "geocode") := by
  induction l with
  | nil =>
      intro st st' h
      obtain rfl : st = st' := Except.ok.inj h
      exact ⟨rfl, rfl, rfl⟩
  | cons s rest ih =>
      intro st st' h
      have hs : s ≠ .geocode := fun hq => hl (by rw [hq]; exact List.mem_cons_self _ _)
      have hlrest : Service.geocode ∉ rest := fun hq => hl (List.mem_cons_of_mem _ hq)
      rcases hr1 : (svcStep env ts key place out_root s st).2 with e | st₁
      · rw [runSvcs_cons_error hr1] at h
        cases h
      · rw [runSvcs_cons_ok hr1] at h
        obtain ⟨h1, h2, h3⟩ := svcStep_frame env ts key place out_root s hs st st₁ hr1
        obtain ⟨g1, g2, g3⟩ := ih hlrest st₁ st' h
        exact ⟨g1.trans h1, g2.trans h2,
               g3.trans (h3 _ (svcName_ne_geocode s hs))⟩

/-- C3: on a status-`"OK"` geocode response the geocode probe records exactly
the first result's formatted address (as the info string), the raw body and
the HTTP code, and populates the run context with the `"lat,lng"` string from
the first result's geometry.location and with its place identifier; on any
other response it records no geocode entry and populates neither. -/
theorem c3_geocode_derivation (env : Env) (ts : Nat) (key place : Str) (out_root : FsPath) :
    (∀ code js addr g pidv,
      geocodeDerived (env (geocodeReq key place)) = some (code, js, addr, g, pidv) →
      ∀ st', (runSvcs env ts key place out_root SERVICES ⟨[], none, none⟩).2 = .ok st' →
        alook st'.results (lit "geocode") = some ⟨some code, addr, js⟩ ∧
        st'.geo = some g ∧ st'.pid = some pidv) ∧
    (respStatusOK (env (geocodeReq key place)) = false →
      ∀ st', (runSvcs env ts key place out_root SERVICES ⟨[], none, none⟩).2 = .ok st' →
        alook st'.results (lit "geocode") = none ∧ st'.geo = none ∧ st'.pid = none) := by
  constructor
  · intro code js addr g pidv h st' hrun
    have hg := geocodeStep_derived h (⟨[], none, none⟩ : St)
    have h2 : (svcStep env ts key place out_root .geocode ⟨[], none, none⟩).2 =
        .ok { results := dictInsert [] (lit "geocode") ⟨some code, addr, js⟩,
              geo := some g, pid := some pidv } := by
      rw [svcStep_geocode, hg]
    rw [SERVICES_eq, runSvcs_cons_ok h2] at hrun
    obtain ⟨p1, p2, p3⟩ := runSvcs_preserves env ts key place out_root SERVICES_rest
      (by decide) _ st' hrun
    refine ⟨?_, by rw [p1], by rw [p2]⟩
    rw [p3]
    exact alook_dictInsert_self [] (lit "geocode") _
  · intro hok st' hrun
    obtain ⟨-, hres⟩ := geocodeStep_notOK hok (⟨[], none, none⟩ : St)
    rcases hres with hok1 | ⟨e, herr⟩
    · have h2 : (svcStep env ts key place out_root .geocode ⟨[], none, none⟩).2 =
          .ok ⟨[], none, none⟩ := by rw [svcStep_geocode, hok1]
      rw [SERVICES_eq, runSvcs_cons_ok h2] at hrun
      obtain ⟨p1, p2, p3⟩ := runSvcs_preserves env ts key place out_root SERVICES_rest
        (by decide) _ st' hrun
      exact ⟨p3, p1, p2⟩
    · have h2 : (svcStep env ts key place out_root .geocode ⟨[], none, none⟩).2 =
          .error e := by rw [svcStep_geocode, herr]
      rw [SERVICES_eq, runSvcs_cons_error h2] at hrun
      cases hrun

/-- A concrete environment whose geocode answer is a well-formed `"OK"`
response and whose other endpoints all fail at transport level. -/
def okGeoJson : JsonVal := .obj [
  (lit "status", .strv (lit "OK")),
  (lit "results", .arr [ .obj [
     (lit "formatted_address", .strv (lit "1600 Amphitheatre Pkwy")),
     (lit "geometry", .obj [(lit "location",
        .obj [(lit "lat", .num (lit "37.42")), (lit "lng", .num (lit "-122.08"))])]),
     (lit "place_id", .strv (lit "PID1"))]])]

def envOkGeo : Env := fun r =>
  if r.url = svcUrl .geocode then .resp 200 [] [] (some okGeoJson) else .exn

/-- The state `envOkGeo`'s run ends in. -/
def c3RunState : St :=
  ⟨[(lit "geocode", ⟨some 200, .strv (lit "1600 Amphitheatre Pkwy"), okGeoJson⟩),
    (lit "batchgeocode", ⟨none, .strv [], .obj []⟩),
    (lit "geolocate", ⟨none, .strv (lit "UNKNOWN"), .obj []⟩)],
   some (lit "37.42,-122.08"), some (.strv (lit "PID1"))⟩

/-- Witness for C3 at `envOkGeo`. -/
theorem c3_geocode_derivation_witness :
    alook c3RunState.results (lit "geocode") =
      some ⟨some 200, .strv (lit "1600 Amphitheatre Pkwy"), okGeoJson⟩ ∧
    c3RunState.geo = some (lit "37.42,-122.08") ∧
    c3RunState.pid = some (.strv (lit "PID1")) :=
  (c3_geocode_derivation envOkGeo 0 (lit "KEY") (lit "P") []).1
    200 okGeoJson (.strv (lit "1600 Amphitheatre Pkwy")) (lit "37.42,-122.08")
    (.strv (lit "PID1")) rfl c3RunState rfl

/-- What every dependent request must carry once `geo = g` and `pid = pidv`
have been derived: the coordinate string as the appropriate parameter for the
six coordinate consumers, and the exact parameter lists of the two
identifier-gated probes (place details sends the place identifier, photo
reference sends the original place string). -/
def geoParamSpec (key place g : Str) (pidv : JsonVal) (req : Request) : Prop :=
  (req.url = svcUrl .staticmap → (lit "center", PVal.pstr g) ∈ req.params) ∧
  (req.url = svcUrl .streetview → (lit "location", PVal.pstr g) ∈ req.params) ∧
  (req.url = svcUrl .distancematrix →
    (lit "origins", PVal.pstr g) ∈ req.params ∧ (lit "destinations", PVal.pstr g) ∈ req.params) ∧
  (req.url = svcUrl .elevation → (lit "locations", PVal.pstr g) ∈ req.params) ∧
  (req.url = svcUrl .timezone → (lit "location", PVal.pstr g) ∈ req.params) ∧
  (req.url = svcUrl .nearbysearch → (lit "location", PVal.pstr g) ∈ req.params) ∧
  (req.url = svcUrl .placedetails →
    req.params = [(lit "place_id", PVal.pjson pidv), (lit "key", PVal.pstr key)]) ∧
  (req.url = svcUrl .photoreference →
    req.params = [(lit "input", PVal.pstr place), (lit "inputtype", PVal.pstr (lit "textquery")),
                  (lit "fields", PVal.pstr (lit "photos")), (lit "key", PVal.pstr key)])

theorem svcPlan_run_paramSpec {env : Env} {ts : Nat} {key place : Str} {out_root : FsPath}
    {s : Service} {st : St} {req : Request} {files : List (FsPath × FileContent)}
    {body : PyM (Option Outcome)} {g : Str} {pidv : JsonVal}
    (hst : st.geo = some g) (hpi : st.pid = some pidv)
    (h : svcPlan env ts key place out_root s st = .run req files body) :
    geoParamSpec key place g pidv req := by
  cases s <;> simp only [svcPlan, hst, hpi, pidGate] at h <;> (try split at h) <;>
    (try cases h) <;>
    refine ⟨?_, ?_, ?_, ?_, ?_, ?_, ?_, ?_⟩ <;> intro hu <;>
    simp only [geocodeReq, batchgeocodeReq, staticmapReq, streetviewReq, photoreferenceReq,
      placedetailsReq, textsearchReq, distancematrixReq, elevationReq, timezoneReq,
      nearbysearchReq, autocompleteReq, snaptoroadsReq, nearestroadsReq, geolocateReq] at hu ⊢ <;>
    first
      | exact absurd hu (by decide)
      | simp_all

theorem pym_bind_eq_ok {α β : Type} {x : PyM α} {f : α → PyM β} {b : β} :
    (x >>= f) = .ok b ↔ ∃ a, x = .ok a ∧ f a = .ok b := by
  cases x <;> simp

theorem eqStr_true_iff {v : JsonVal} {s : Str} : eqStr v s = true ↔ v = .strv s := by
  cases v <;> simp [eqStr]

theorem jget_eq_ok {js : JsonVal} {k : Str} {d v : JsonVal} :
    jget js k d = .ok v ↔ ∃ kvs, js = .obj kvs ∧ (alook kvs k).getD d = v := by
  cases js <;> simp [jget]

theorem jsubs_eq_ok {js : JsonVal} {k : Str} {v : JsonVal} :
    jsubs js k = .ok v ↔ ∃ kvs, js = .obj kvs ∧ alook kvs k = some v := by
  cases js <;> simp [jsubs]
  case obj kvs =>
    rcases halk : alook kvs k with _ | w <;> simp [halk]

theorem jsubi_zero_eq_ok {js v : JsonVal} :
    jsubi js 0 = .ok v ↔
      (∃ x tl, js = .arr (x :: tl) ∧ v = x) ∨
      (∃ c tl, js = .strv (c :: tl) ∧ v = .strv [c]) := by
  cases js <;> simp [jsubi]
  case arr xs => rcases xs with _ | ⟨x, tl⟩ <;> simp
  case strv s => rcases s with _ | ⟨c, tl⟩ <;> simp [eq_comm]

theorem geocodeStep_ok_cases {env : Env} {key place : Str} {st st' : St}
    (h : (geocodeStep env key place st).2 = .ok st') :
    st' = st ∨ ∃ code js addr g pidv,
      geocodeDerived (env (geocodeReq key place)) = some (code, js, addr, g, pidv) ∧
      st' = { results := dictInsert st.results (lit "geocode") ⟨some code, addr, js⟩,
              geo := some g, pid := some pidv } := by
  rcases ho : env (geocodeReq key place) with _ | ⟨c1, hdrs, cnt, json⟩
  · left
    simp only [geocodeStep, fetch_json, ho, jget, alook] at h
    simp [eqStr] at h
    exact h.symm
  rcases json with _ | jv
  · left
    simp only [geocodeStep, fetch_json, ho, jget, alook] at h
    simp [eqStr] at h
    exact h.symm
  rcases jv with _ | b | tok | s | xs | kvs
  case null => simp [geocodeStep, fetch_json, ho, jget] at h
  case boolv => simp [geocodeStep, fetch_json, ho, jget] at h
  case num => simp [geocodeStep, fetch_json, ho, jget] at h
  case strv => simp [geocodeStep, fetch_json, ho, jget] at h
  case arr => simp [geocodeStep, fetch_json, ho, jget] at h
  case obj =>
    simp only [geocodeStep, fetch_json, ho, jget, pym_pure_def, pym_bind_ok] at h
    by_cases hok : eqStr ((alook kvs (lit "status")).getD .null) (lit "OK") = true
    case neg =>
      left
      rw [if_neg hok] at h
      exact (Except.ok.inj h).symm
    rw [if_pos hok] at h
    right
    simp only [pym_bind_eq_ok] at h
    obtain ⟨rsv, hrsv, h⟩ := h
    obtain ⟨r0, hr0, h⟩ := h
    obtain ⟨addr, haddr, h⟩ := h
    obtain ⟨geom, hgeom, h⟩ := h
    obtain ⟨locv, hloc, h⟩ := h
    obtain ⟨latv, hlat, h⟩ := h
    obtain ⟨lngv, hlng, h⟩ := h
    obtain ⟨pidv, hpid, h⟩ := h
    rw [jsubs_eq_ok] at hrsv
    obtain ⟨kvs2, hk2, hrsv⟩ := hrsv
    rw [← JsonVal.obj.inj hk2] at hrsv
    rw [jsubi_zero_eq_ok] at hr0
    rcases hr0 with ⟨x, tl, hxs, rfl⟩ | ⟨c, tl, hxs, rfl⟩
    swap
    · rw [jsubs_eq_ok] at haddr
      obtain ⟨kv0, hbad, -⟩ := haddr
      cases hbad
    rw [jsubs_eq_ok] at haddr hgeom hpid
    obtain ⟨kv0, hx0, haddr⟩ := haddr
    subst hx0
    obtain ⟨kv0b, hb, hgeom⟩ := hgeom
    rw [← JsonVal.obj.inj hb] at hgeom
    obtain ⟨kv0c, hc2, hpid⟩ := hpid
    rw [← JsonVal.obj.inj hc2] at hpid
    rw [jsubs_eq_ok] at hloc
    obtain ⟨kvg, hxg, hloc⟩ := hloc
    subst hxg
    rw [jsubs_eq_ok] at hlat hlng
    obtain ⟨kvl, hxl, hlat⟩ := hlat
    subst hxl
    obtain ⟨kvl2, hl2, hlng⟩ := hlng
    rw [← JsonVal.obj.inj hl2] at hlng
    obtain rfl : st' =
        { results := dictInsert st.results (lit "geocode") ⟨some c1, addr, .obj kvs⟩,
          geo := some (pyStr latv ++ ',' :: pyStr lngv), pid := some pidv } :=
      (Except.ok.inj h).symm
    refine ⟨c1, .obj kvs, addr, pyStr latv ++ ',' :: pyStr lngv, pidv, ?_, rfl⟩
    have hstv : alook kvs (lit "status") = some (.strv (lit "OK")) := by
      rw [eqStr_true_iff] at hok
      rcases hs0 : alook kvs (lit "status") with _ | w
      · rw [hs0] at hok
        cases hok
      · rw [hs0] at hok
        simp at hok
        rw [hok]
    simp [geocodeDerived, respParsed, ho, jfield, hstv, eqStr, hrsv, hxs, jhead,
          haddr, hgeom, hloc, hlat, hlng, hpid]

theorem geocodeStep_results_frame {env : Env} {key place : Str} {st st' : St}
    (h : (geocodeStep env key place st).2 = .ok st') :
    ∀ m, m ≠ lit "geocode" → alook st'.results m = alook st.results m := by
  rcases geocodeStep_ok_cases h with rfl | ⟨c, js, a, g, p, -, rfl⟩
  · intro m _
    rfl
  · intro m hm
    exact alook_dictInsert_ne _ _ _ _ hm

theorem geocodeStep_trace (env : Env) (key place : Str) (st : St) :
    (geocodeStep env key place st).1 = ⟨[geocodeReq key place], []⟩ := rfl

theorem svcStep_paramSpec {env : Env} {ts : Nat} {key place : Str} {out_root : FsPath}
    {s : Service} {st : St} {g : Str} {pidv : JsonVal} (hs : s ≠ .geocode)
    (hst : st.geo = some g) (hpi : st.pid = some pidv) :
    ∀ req ∈ (svcStep env ts key place out_root s st).1.reqs,
      geoParamSpec key place g pidv req := by
  intro req hreq
  rw [svcStep_eq_runPlan env ts key place out_root s hs st] at hreq
  rcases hplan : svcPlan env ts key place out_root s st with _ | e | ⟨req2, files, body⟩ <;>
    rw [hplan] at hreq
  · cases hreq
  · cases hreq
  · obtain rfl := List.mem_singleton.mp hreq
    exact svcPlan_run_paramSpec hst hpi hplan

theorem runSvcs_paramSpec (env : Env) (ts : Nat) (key place : Str) (out_root : FsPath)
    (l : List Service) (hl : Service.geocode ∉ l) (g : Str) (pidv : JsonVal) :
    ∀ st : St, st.geo = some g → st.pid = some pidv →
      ∀ req ∈ (runSvcs env ts key place out_root l st).1.reqs,
        geoParamSpec key place g pidv req := by
  induction l with
  | nil =>
      intro st _ _ req h
      exact absurd h (List.not_mem_nil req)
  | cons s rest ih =>
      intro st hg hp req hreq
      have hs : s ≠ .geocode := fun hq => hl (by rw [hq]; exact List.mem_cons_self _ _)
      have hlrest : Service.geocode ∉ rest := fun hq => hl (List.mem_cons_of_mem _ hq)
      rcases hr1 : (svcStep env ts key place out_root s st).2 with e | st₁
      · rw [runSvcs_cons_error hr1] at hreq
        exact svcStep_paramSpec hs hg hp req hreq
      · rw [runSvcs_cons_ok hr1] at hreq
        rcases List.mem_append.mp hreq with hq | hq
        · exact svcStep_paramSpec hs hg hp req hq
        · obtain ⟨h1, h2, -⟩ := svcStep_frame env ts key place out_root s hs st st₁ hr1
          exact ih hlrest st₁ (by rw [h1, hg]) (by rw [h2, hp]) req hq

/-- C4 (amended): once the geocode probe has derived the coordinate string
`g` and the place identifier, every static-map, street-view, distance-matrix,
elevation, time-zone and nearby-search request of the run carries `g` as the
documented parameter, and every place-details request carries the derived
place identifier — not the coordinate string (see the counterexample). -/
theorem c4_dependent_requests_params (env : Env) (ts : Nat) (key place : Str)
    (out_root : FsPath) {code : Nat} {js addr : JsonVal} {g : Str} {pidv : JsonVal}
    (h : geocodeDerived (env (geocodeReq key place)) = some (code, js, addr, g, pidv)) :
    ∀ req ∈ (test_key_place env ts key place out_root).1.reqs,
      geoParamSpec key place g pidv req := by
  intro req hreq
  replace hreq : req ∈ (runSvcs env ts key place out_root SERVICES ⟨[], none, none⟩).1.reqs :=
    hreq
  have hg := geocodeStep_derived h (⟨[], none, none⟩ : St)
  have h2 : (svcStep env ts key place out_root .geocode ⟨[], none, none⟩).2 =
      .ok { results := dictInsert [] (lit "geocode") ⟨some code, addr, js⟩,
            geo := some g, pid := some pidv } := by
    rw [svcStep_geocode, hg]
  rw [SERVICES_eq, runSvcs_cons_ok h2] at hreq
  rcases List.mem_append.mp hreq with hq | hq
  · have h1 : (svcStep env ts key place out_root .geocode ⟨[], none, none⟩).1 =
        ⟨[geocodeReq key place], []⟩ := geocodeStep_trace env key place _
    rw [h1] at hq
    obtain rfl := List.mem_singleton.mp hq
    refine ⟨?_, ?_, ?_, ?_, ?_, ?_, ?_, ?_⟩ <;> intro hu <;>
      simp only [geocodeReq] at hu <;> exact absurd hu (by decide)
  · exact runSvcs_paramSpec env ts key place out_root SERVICES_rest (by decide) g pidv
      _ rfl rfl req hq

/-- Does a request parameter value display the string `s` (as a plain string
parameter or a JSON string)? -/
def pvalHasStr (v : PVal) (s : Str) : Bool :=
  match v with
  | .pstr t => t = s
  | .pjson (.strv t) => t = s
  | _ => false

/-- C4 counterexample: in the concrete run under `envOkGeo` the geocode probe
derives the coordinate string `"37.42,-122.08"`, the place-details probe
issues exactly one request, and none of that request's parameters carries the
coordinate string — it carries the place identifier instead.  This refutes
the claim that the place-details probe receives the derived coordinate
string. -/
theorem c4_counterexample :
    ((test_key_place envOkGeo 0 (lit "KEY") (lit "P") []).1.reqs.filter
        (fun r => r.url = svcUrl .placedetails)) =
      [placedetailsReq (lit "KEY") (.strv (lit "PID1"))] ∧
    ((placedetailsReq (lit "KEY") (.strv (lit "PID1"))).params.all
        (fun q => !pvalHasStr q.2 (lit "37.42,-122.08"))) = true ∧
    geocodeDerived (envOkGeo (geocodeReq (lit "KEY") (lit "P"))) =
      some (200, okGeoJson, .strv (lit "1600 Amphitheatre Pkwy"),
            lit "37.42,-122.08", .strv (lit "PID1")) :=
  ⟨rfl, rfl, rfl⟩

/-- Witness for the amended C4: the static-map request of the `envOkGeo` run
satisfies the parameter specification. -/
theorem c4_dependent_requests_params_witness :
    geoParamSpec (lit "KEY") (lit "P") (lit "37.42,-122.08") (.strv (lit "PID1"))
      (staticmapReq (lit "KEY") (lit "37.42,-122.08")) :=
  c4_dependent_requests_params envOkGeo 0 (lit "KEY") (lit "P") [] rfl
    (staticmapReq (lit "KEY") (lit "37.42,-122.08"))
    (List.mem_cons_of_mem _ (List.mem_cons_of_mem _ (List.mem_cons_self _ _)))

/-- Spec-side extraction of the photo-reference info string: the first
candidate's first photo's `photo_reference` field. -/
def photoRefOf (js : JsonVal) : Option JsonVal := do
  let cands ← jfield js (lit "candidates")
  let c0 ← jhead cands
  let ph ← jfield c0 (lit "photos")
  let p0 ← jhead ph
  match p0 with
  | .obj kv => some ((alook kv (lit "photo_reference")).getD (.strv []))
  | _ => none

theorem photoreferenceBody_ok_some {cj : Option Nat × JsonVal} {o : Outcome}
    (h : photoreferenceBody cj = .ok (some o)) :
    ∃ r, photoRefOf cj.2 = some r ∧ o = ⟨cj.1, r, cj.2⟩ := by
  rcases cj with ⟨code, js⟩
  cases js <;> simp only [photoreferenceBody, jget, pym_pure_def, pym_throw_def,
    pym_bind_ok, pym_bind_error] at h
  case null => cases h
  case boolv => cases h
  case num => cases h
  case strv => cases h
  case arr => cases h
  case obj kvs =>
  rcases halk : alook kvs (lit "candidates") with _ | cv <;> rw [halk] at h <;>
    simp only [Option.getD] at h
  · simp [truthy] at h
  cases cv <;> simp only [truthy] at h
  case null => simp at h
  case boolv b =>
      cases b <;> simp [jsubi] at h
  case num tok =>
      by_cases hz : numIsZero tok <;> simp [hz, jsubi] at h
  case obj kvs2 =>
      rcases kvs2 with _ | ⟨p2, tl2⟩ <;> simp [jsubi] at h
  case strv s =>
      rcases s with _ | ⟨c, tl⟩ <;> simp at h
      rcases hb : decide ((lit "photos") <:+: [c]) <;>
        simp only [pyIn, hb, pym_pure_def, pym_bind_ok] at h <;> simp [jsubs] at h
  case arr xs =>
      rcases xs with _ | ⟨x, tl⟩ <;> simp at h
      cases x <;> simp only [pyIn, pym_pure_def, pym_throw_def, pym_bind_ok,
        pym_bind_error, jsubi_arr_cons_zero] at h
      case null => cases h
      case boolv => cases h
      case num => cases h
      case strv s2 =>
          rcases hb : decide ((lit "photos") <:+: s2) <;> rw [hb] at h <;> simp [jsubs] at h
      case arr xs2 =>
          rcases hb : xs2.any (fun v => match v with | .strv t => t = lit "photos" | _ => false) <;>
            rw [hb] at h <;> simp [jsubs] at h
      case obj kv0 =>
          rcases hb : kv0.any (fun p => p.1 = lit "photos") <;> rw [hb] at h
          · simp at h
          simp only [if_pos rfl, jsubs] at h
          rcases halk2 : alook kv0 (lit "photos") with _ | ph <;> rw [halk2] at h
          · simp at h
          simp only [pym_pure_def, pym_bind_ok] at h
          cases ph <;> (try simp [jsubi] at h)
          case strv s3 =>
            rcases s3 with _ | ⟨c3, tl3⟩ <;> simp [jsubi] at h
          case arr xs3 =>
          rcases xs3 with _ | ⟨p0, tl3⟩ <;> simp [jsubi] at h
          cases p0 <;> simp [jget] at h
          case obj kvp =>
          refine ⟨(alook kvp (lit "photo_reference")).getD (.strv []), ?_, ?_⟩
          · simp [photoRefOf, jfield, halk, jhead, halk2]
          · obtain ⟨rfl, rfl, rfl⟩ := h
            rfl

theorem svcName_ne_of_ne {s t : Service} (h : s ≠ t) : svcName s ≠ svcName t := by
  cases s <;> cases t <;> first | exact absurd rfl h | decide

/-- If a completed geocode-free suffix run shows an entry under `svcName s₀`
that was not there before, some iteration planned and ran `s₀`'s body and
that body produced the entry. -/
theorem runSvcs_recorded (env : Env) (ts : Nat) (key place : Str) (out_root : FsPath)
    (l : List Service) (s₀ : Service) (hs₀ : s₀ ≠ .geocode) :
    ∀ st st' o, (runSvcs env ts key place out_root l st).2 = .ok st' →
      alook st'.results (svcName s₀) = some o →
      alook st.results (svcName s₀) = some o ∨
      ∃ st₀ req files body,
        svcPlan env ts key place out_root s₀ st₀ = .run req files body ∧
        body = .ok (some o) := by
  induction l with
  | nil =>
      intro st st' o h ho
      obtain rfl := Except.ok.inj h
      exact Or.inl ho
  | cons s rest ih =>
      intro st st' o h ho
      rcases hr1 : (svcStep env ts key place out_root s st).2 with e | st₁
      · rw [runSvcs_cons_error hr1] at h
        cases h
      · rw [runSvcs_cons_ok hr1] at h
        rcases ih st₁ st' o h ho with h1 | h1
        case inr => exact Or.inr h1
        by_cases hss : s = s₀
        · subst hss
          rw [svcStep_eq_runPlan env ts key place out_root s hs₀ st] at hr1
          rcases hplan : svcPlan env ts key place out_root s st with _ | e | ⟨req, files, body⟩ <;>
            rw [hplan] at hr1
          · obtain rfl := Except.ok.inj hr1
            exact Or.inl h1
          · cases hr1
          · rcases recordWith_ok hr1 with ⟨-, -, hcase⟩
            rcases hcase with ⟨hb, rfl⟩ | ⟨o2, hb, hres⟩
            · exact Or.inl h1
            · rw [hres, alook_dictInsert_self] at h1
              obtain rfl : o2 = o := Option.some.inj h1
              exact Or.inr ⟨st, req, files, body, hplan, hb⟩
        · by_cases hsg : s = .geocode
          · subst hsg
            rw [svcStep_geocode] at hr1
            rw [geocodeStep_results_frame hr1 (svcName s₀)
              (svcName_ne_geocode s₀ hs₀).symm] at h1
            exact Or.inl h1
          · obtain ⟨-, -, hframe⟩ := svcStep_frame env ts key place out_root s hsg st st₁ hr1
            rw [hframe (svcName s₀) (svcName_ne_of_ne (fun hq => hss hq.symm))] at h1
            exact Or.inl h1

theorem svcPlan_photoreference_run {env : Env} {ts : Nat} {key place : Str}
    {out_root : FsPath} {st : St} {req : Request} {files : List (FsPath × FileContent)}
    {body : PyM (Option Outcome)}
    (h : svcPlan env ts key place out_root .photoreference st = .run req files body) :
    req = photoreferenceReq key place ∧
    body = photoreferenceBody (fetch_json env (photoreferenceReq key place)) := by
  simp only [svcPlan] at h
  split at h
  · cases h
    exact ⟨rfl, rfl⟩
  · cases h

theorem svcPlan_run_photoref_params {env : Env} {ts : Nat} {key place : Str}
    {out_root : FsPath} {s : Service} {st : St} {req : Request}
    {files : List (FsPath × FileContent)} {body : PyM (Option Outcome)}
    (h : svcPlan env ts key place out_root s st = .run req files body)
    (hu : req.url = svcUrl .photoreference) :
    req.params = [(lit "input", PVal.pstr place), (lit "inputtype", PVal.pstr (lit "textquery")),
                  (lit "fields", PVal.pstr (lit "photos")), (lit "key", PVal.pstr key)] := by
  by_cases hss : s = .photoreference
  · subst hss
    obtain ⟨rfl, -⟩ := svcPlan_photoreference_run h
    rfl
  · rw [svcPlan_run_url h] at hu
    cases s <;> first | exact absurd rfl hss | exact absurd hu (by decide)

theorem runSvcs_photoref_params (env : Env) (ts : Nat) (key place : Str) (out_root : FsPath)
    (l : List Service) :
    ∀ st : St, ∀ req ∈ (runSvcs env ts key place out_root l st).1.reqs,
      req.url = svcUrl .photoreference →
      req.params = [(lit "input", PVal.pstr place), (lit "inputtype", PVal.pstr (lit "textquery")),
                    (lit "fields", PVal.pstr (lit "photos")), (lit "key", PVal.pstr key)] := by
  induction l with
  | nil =>
      intro st req h
      exact absurd h (List.not_mem_nil req)
  | cons s rest ih =>
      intro st req hreq hu
      have hstep : req ∈ (svcStep env ts key place out_root s st).1.reqs →
          req.params = [(lit "input", PVal.pstr place),
                        (lit "inputtype", PVal.pstr (lit "textquery")),
                        (lit "fields", PVal.pstr (lit "photos")),
                        (lit "key", PVal.pstr key)] := by
        intro hq
        by_cases hsg : s = .geocode
        · subst hsg
          rw [svcStep_geocode, geocodeStep_trace] at hq
          obtain rfl := List.mem_singleton.mp hq
          simp only [geocodeReq] at hu
          exact absurd hu (by decide)
        · rw [svcStep_eq_runPlan env ts key place out_root s hsg st] at hq
          rcases hplan : svcPlan env ts key place out_root s st with _ | e | ⟨req2, files, body⟩ <;>
            rw [hplan] at hq
          · cases hq
          · cases hq
          · obtain rfl := List.mem_singleton.mp hq
            exact svcPlan_run_photoref_params hplan hu
      rcases hr1 : (svcStep env ts key place out_root s st).2 with e | st₁
      · rw [runSvcs_cons_error hr1] at hreq
        exact hstep hreq
      · rw [runSvcs_cons_ok hr1] at hreq
        rcases List.mem_append.mp hreq with hq | hq
        · exact hstep hq
        · exact ih st₁ req hq hu

/-- C9: although the photo-reference probe is gated on the derived place
identifier, its request never carries it: every request the run sends to the
Find Place From Text endpoint has exactly the parameters
`input=place, inputtype=textquery, fields=photos, key=key` — the user's
original place string, not the identifier — and a recorded photo-reference
outcome's info is the first candidate's first `photo_reference` of that
response. -/
theorem c9_photoreference_uses_place (env : Env) (ts : Nat) (key place : Str)
    (out_root : FsPath) :
    (∀ req ∈ (test_key_place env ts key place out_root).1.reqs,
      req.url = svcUrl .photoreference →
      req.params = [(lit "input", PVal.pstr place), (lit "inputtype", PVal.pstr (lit "textquery")),
                    (lit "fields", PVal.pstr (lit "photos")), (lit "key", PVal.pstr key)]) ∧
    (∀ rs o, (test_key_place env ts key place out_root).2 = .ok rs →
      alook rs (lit "photoreference") = some o →
      ∃ r, photoRefOf (fetch_json env (photoreferenceReq key place)).2 = some r ∧
        o = ⟨(fetch_json env (photoreferenceReq key place)).1, r,
             (fetch_json env (photoreferenceReq key place)).2⟩) := by
  constructor
  · intro req hreq
    exact runSvcs_photoref_params env ts key place out_root SERVICES ⟨[], none, none⟩ req hreq
  · intro rs o hrun ho
    rcases hr : (runSvcs env ts key place out_root SERVICES ⟨[], none, none⟩).2 with e | st'
    · replace hrun : ((runSvcs env ts key place out_root SERVICES ⟨[], none, none⟩).2).map
          St.results = .ok rs := hrun
      rw [hr] at hrun
      cases hrun
    · replace hrun : ((runSvcs env ts key place out_root SERVICES ⟨[], none, none⟩).2).map
          St.results = .ok rs := hrun
      rw [hr] at hrun
      obtain rfl : st'.results = rs := Except.ok.inj hrun
      rcases runSvcs_recorded env ts key place out_root SERVICES .photoreference
          (by decide) ⟨[], none, none⟩ st' o hr ho with h1 | ⟨st₀, req, files, body, hplan, hb⟩
      · cases h1
      · obtain ⟨-, rfl⟩ := svcPlan_photoreference_run hplan
        exact photoreferenceBody_ok_some hb

def fpJson : JsonVal := .obj [(lit "candidates", .arr [ .obj [(lit "photos",
  .arr [ .obj [(lit "photo_reference", .strv (lit "REF1"))]])]])]

def envC9 : Env := fun r =>
  if r.url = svcUrl .geocode then .resp 200 [] [] (some okGeoJson)
  else if r.url = svcUrl .photoreference then .resp 200 [] [] (some fpJson)
  else .exn

/-- The `envC9` run's results mapping. -/
def c9Results : List (Str × Outcome) :=
  [(lit "geocode", ⟨some 200, .strv (lit "1600 Amphitheatre Pkwy"), okGeoJson⟩),
   (lit "batchgeocode", ⟨none, .strv [], .obj []⟩),
   (lit "photoreference", ⟨some 200, .strv (lit "REF1"), fpJson⟩),
   (lit "geolocate", ⟨none, .strv (lit "UNKNOWN"), .obj []⟩)]

/-- Witness for C9 at `envC9`. -/
theorem c9_photoreference_uses_place_witness :
    (photoreferenceReq (lit "KEY") (lit "P")).params =
      [(lit "input", PVal.pstr (lit "P")), (lit "inputtype", PVal.pstr (lit "textquery")),
       (lit "fields", PVal.pstr (lit "photos")), (lit "key", PVal.pstr (lit "KEY"))] ∧
    ∃ r, photoRefOf (fetch_json envC9 (photoreferenceReq (lit "KEY") (lit "P"))).2 = some r ∧
      (⟨some 200, .strv (lit "REF1"), fpJson⟩ : Outcome) =
        ⟨(fetch_json envC9 (photoreferenceReq (lit "KEY") (lit "P"))).1, r,
         (fetch_json envC9 (photoreferenceReq (lit "KEY") (lit "P"))).2⟩ :=
  ⟨(c9_photoreference_uses_place envC9 0 (lit "KEY") (lit "P") []).1
     (photoreferenceReq (lit "KEY") (lit "P"))
     (List.mem_cons_of_mem _ (List.mem_cons_of_mem _ (List.mem_cons_of_mem _
        (List.mem_cons_of_mem _ (List.mem_cons_self _ _))))) rfl,
   (c9_photoreference_uses_place envC9 0 (lit "KEY") (lit "P") []).2
     c9Results ⟨some 200, .strv (lit "REF1"), fpJson⟩ rfl rfl⟩

/-! ### Claim C6: files -/

def is200 (o : HttpOutcome) : Bool :=
  match o with
  | .resp 200 _ _ _ => true
  | _ => false

theorem fetch_image_files {env : Env} {req : Request} {dest : FsPath}
    {pc : FsPath × FileContent} (h : pc ∈ (fetch_image env req dest).2) :
    pc.1 = dest ∧ is200 (env req) = true := by
  rcases ho : env req with _ | ⟨code, hdrs, cnt, json⟩ <;> simp only [fetch_image, ho] at h
  · cases h
  · by_cases hc : code = 200
    · subst hc
      simp only [if_pos] at h
      obtain rfl := List.mem_singleton.mp h
      exact ⟨rfl, by simp [is200, ho]⟩
    · rw [if_neg hc] at h
      cases h

theorem svcPlan_run_files {env : Env} {ts : Nat} {key place : Str} {out_root : FsPath}
    {s : Service} {st : St} {req : Request} {files : List (FsPath × FileContent)}
    {body : PyM (Option Outcome)}
    (h : svcPlan env ts key place out_root s st = .run req files body) :
    ∀ pc ∈ files,
      pc.1 = out_root ++ [lit "batch.csv"] ∨
      (pc.1 = out_root ++ [lit "staticmap.png"] ∧ req.url = svcUrl .staticmap ∧
        is200 (env req) = true) ∨
      (pc.1 = out_root ++ [lit "streetview.jpg"] ∧ req.url = svcUrl .streetview ∧
        is200 (env req) = true) := by
  cases s <;> simp only [svcPlan] at h <;> (try split at h) <;> (try cases h) <;>
    intro pc hpc <;>
    first
      | exact absurd hpc (List.not_mem_nil pc)
      | (obtain rfl := List.mem_singleton.mp hpc
         exact Or.inl rfl)
      | (obtain ⟨h1, h2⟩ := fetch_image_files hpc
         first
           | exact Or.inr (Or.inl ⟨h1, rfl, h2⟩)
           | exact Or.inr (Or.inr ⟨h1, rfl, h2⟩))

theorem runSvcs_files (env : Env) (ts : Nat) (key place : Str) (out_root : FsPath)
    (l : List Service) :
    ∀ st : St, ∀ pc ∈ (runSvcs env ts key place out_root l st).1.files,
      pc.1 = out_root ++ [lit "batch.csv"] ∨
      (pc.1 = out_root ++ [lit "staticmap.png"] ∧
        ∃ req, req.url = svcUrl .staticmap ∧ is200 (env req) = true) ∨
      (pc.1 = out_root ++ [lit "streetview.jpg"] ∧
        ∃ req, req.url = svcUrl .streetview ∧ is200 (env req) = true) := by
  induction l with
  | nil =>
      intro st pc h
      exact absurd h (List.not_mem_nil pc)
  | cons s rest ih =>
      intro st pc hpc
      have hstep : pc ∈ (svcStep env ts key place out_root s st).1.files →
          (pc.1 = out_root ++ [lit "batch.csv"] ∨
           (pc.1 = out_root ++ [lit "staticmap.png"] ∧
             ∃ req, req.url = svcUrl .staticmap ∧ is200 (env req) = true) ∨
           (pc.1 = out_root ++ [lit "streetview.jpg"] ∧
             ∃ req, req.url = svcUrl .streetview ∧ is200 (env req) = true)) := by
        intro hq
        by_cases hsg : s = .geocode
        · subst hsg
          rw [svcStep_geocode, geocodeStep_trace] at hq
          exact absurd hq (List.not_mem_nil pc)
        · rw [svcStep_eq_runPlan env ts key place out_root s hsg st] at hq
          rcases hplan : svcPlan env ts key place out_root s st with _ | e | ⟨req2, files, body⟩ <;>
            rw [hplan] at hq
          · cases hq
          · cases hq
          · rcases svcPlan_run_files hplan pc hq with h1 | ⟨h1, h2, h3⟩ | ⟨h1, h2, h3⟩
            · exact Or.inl h1
            · exact Or.inr (Or.inl ⟨h1, req2, h2, h3⟩)
            · exact Or.inr (Or.inr ⟨h1, req2, h2, h3⟩)
      rcases hr1 : (svcStep env ts key place out_root s st).2 with e | st₁
      · rw [runSvcs_cons_error hr1] at hpc
        exact hstep hpc
      · rw [runSvcs_cons_ok hr1] at hpc
        rcases List.mem_append.mp hpc with hq | hq
        · exact hstep hq
        · exact ih st₁ pc hq

theorem runSvcs_batch_file (env : Env) (ts : Nat) (key place : Str) (out_root : FsPath)
    (l : List Service) (hb : Service.batchgeocode ∈ l) :
    ∀ st st', (runSvcs env ts key place out_root l st).2 = .ok st' →
      (out_root ++ [lit "batch.csv"], FileContent.csvRows [[lit "address"], [place]]) ∈
        (runSvcs env ts key place out_root l st).1.files := by
  induction l with
  | nil => cases hb
  | cons s rest ih =>
      intro st st' h
      rcases hr1 : (svcStep env ts key place out_root s st).2 with e | st₁
      · rw [runSvcs_cons_error hr1] at h
        cases h
      · rw [runSvcs_cons_ok hr1] at h
        rw [runSvcs_cons_ok hr1]
        by_cases hsb : s = .batchgeocode
        · subst hsb
          refine List.mem_append.mpr (Or.inl ?_)
          exact List.mem_cons_self _ _
        · have hbrest : Service.batchgeocode ∈ rest := by
            rcases List.mem_cons.mp hb with hq | hq
            · exact absurd hq.symm hsb
            · exact hq
          exact List.mem_append.mpr (Or.inr (ih hbrest st₁ st' h))

/-- C6 counterexample: under a network where every request (including the
batch-geocode POST) fails with a transport exception, the run still creates
`batch.csv` — the file is written before the request is even sent — while the
batch probe records a failure outcome with no HTTP status.  This refutes the
claim that `batch.csv` is created only if the batch-geocode probe succeeds. -/
theorem c6_counterexample :
    (test_key_place (fun _ => .exn) 0 (lit "K") (lit "P") [lit "out"]).1.files =
      [([lit "out", lit "batch.csv"], .csvRows [[lit "address"], [lit "P"]])] ∧
    (fun _ => HttpOutcome.exn) (batchgeocodeReq (lit "K") (lit "P")) = .exn ∧
    okAnd (test_key_place (fun _ => .exn) 0 (lit "K") (lit "P") [lit "out"]).2
      (fun rs => match alook rs (lit "batchgeocode") with
                 | some o => o.http.isNone
                 | none => false) = true :=
  ⟨rfl, rfl, rfl⟩

/-- C6 (amended): every file a run creates is either `batch.csv` — which is
written whenever the batch-geocode probe executes (in particular in every
completed run), regardless of whether that probe succeeds — or one of
`staticmap.png` / `streetview.jpg`, which are created only when the
corresponding probe's request was answered with HTTP 200. -/
theorem c6_files_discipline (env : Env) (ts : Nat) (key place : Str) (out_root : FsPath) :
    (∀ pc ∈ (test_key_place env ts key place out_root).1.files,
      pc.1 = out_root ++ [lit "batch.csv"] ∨
      (pc.1 = out_root ++ [lit "staticmap.png"] ∧
        ∃ req, req.url = svcUrl .staticmap ∧ is200 (env req) = true) ∨
      (pc.1 = out_root ++ [lit "streetview.jpg"] ∧
        ∃ req, req.url = svcUrl .streetview ∧ is200 (env req) = true)) ∧
    (∀ rs, (test_key_place env ts key place out_root).2 = .ok rs →
      (out_root ++ [lit "batch.csv"], FileContent.csvRows [[lit "address"], [place]]) ∈
        (test_key_place env ts key place out_root).1.files) := by
  constructor
  · intro pc hpc
    exact runSvcs_files env ts key place out_root SERVICES ⟨[], none, none⟩ pc hpc
  · intro rs hrun
    rcases hr : (runSvcs env ts key place out_root SERVICES ⟨[], none, none⟩).2 with e | st'
    · replace hrun : ((runSvcs env ts key place out_root SERVICES ⟨[], none, none⟩).2).map
          St.results = .ok rs := hrun
      rw [hr] at hrun
      cases hrun
    · exact runSvcs_batch_file env ts key place out_root SERVICES (by decide)
        ⟨[], none, none⟩ st' hr

/-- Witness for the amended C6 at the all-failing network. -/
theorem c6_files_discipline_witness :
    (([lit "out", lit "batch.csv"],
        FileContent.csvRows [[lit "address"], [lit "P"]]) : FsPath × FileContent).1 =
      [lit "out"] ++ [lit "batch.csv"] ∨
    ((([lit "out", lit "batch.csv"],
        FileContent.csvRows [[lit "address"], [lit "P"]]) : FsPath × FileContent).1 =
        [lit "out"] ++ [lit "staticmap.png"] ∧
      ∃ req : Request, req.url = svcUrl .staticmap ∧
        is200 ((fun _ => HttpOutcome.exn) req) = true) ∨
    ((([lit "out", lit "batch.csv"],
        FileContent.csvRows [[lit "address"], [lit "P"]]) : FsPath × FileContent).1 =
        [lit "out"] ++ [lit "streetview.jpg"] ∧
      ∃ req : Request, req.url = svcUrl .streetview ∧
        is200 ((fun _ => HttpOutcome.exn) req) = true) :=
  (c6_files_discipline (fun _ => .exn) 0 (lit "K") (lit "P") [lit "out"]).1
    ([lit "out", lit "batch.csv"], FileContent.csvRows [[lit "address"], [lit "P"]])
    (List.mem_singleton.mpr rfl)

/-! ### Claim C1: success markers -/

/-- What `fetch_json` yields, as a function of the raw outcome. -/
def parsedOf (o : HttpOutcome) : Option Nat × JsonVal :=
  match o with
  | .exn => (none, .obj [])
  | .resp _ _ _ none => (none, .obj [])
  | .resp code _ _ (some js) => (some code, js)

theorem fetch_json_eq_parsedOf (env : Env) (req : Request) :
    fetch_json env req = parsedOf (env req) := by
  rcases ho : env req with _ | ⟨c, h, ct, j⟩ <;> simp only [fetch_json, parsedOf, ho]

/-- Is the parsed body an object with `status = "OK"`? -/
def statusOKJ (js : JsonVal) : Bool :=
  match js with
  | .obj kvs => eqStr ((alook kvs (lit "status")).getD .null) (lit "OK")
  | _ => false

theorem respStatusOK_eq_statusOKJ (o : HttpOutcome) :
    respStatusOK o = statusOKJ (parsedOf o).2 := by
  rcases o with _ | ⟨c, h, ct, j⟩
  · rfl
  · rcases j with _ | jv
    · rfl
    · cases jv <;> rfl

/-- First result's `name` (textsearch / nearbysearch success marker). -/
def firstNameOf (js : JsonVal) : Option JsonVal := do
  let rsv ← jfield js (lit "results")
  let r0 ← jhead rsv
  match r0 with
  | .obj kv => some ((alook kv (lit "name")).getD (.strv []))
  | _ => none

/-- First prediction's `description` (autocomplete success marker). -/
def firstDescOf (js : JsonVal) : Option JsonVal := do
  let pv ← jfield js (lit "predictions")
  let p0 ← jhead pv
  match p0 with
  | .obj kv => some ((alook kv (lit "description")).getD (.strv []))
  | _ => none

/-- First result's elevation, rendered with the `m` suffix. -/
def elevInfoOf (js : JsonVal) : Option Str := do
  let rsv ← jfield js (lit "results")
  let r0 ← jhead rsv
  match r0 with
  | .obj kv => some (pyStr ((alook kv (lit "elevation")).getD (.strv [])) ++ ['m'])
  | _ => none

/-- Truthy `timeZoneId` field (timezone success marker). -/
def tzOf (js : JsonVal) : Option JsonVal :=
  match jfield js (lit "timeZoneId") with
  | some v => if truthy v then some v else none
  | none => none

/-- Distance-matrix info: first element's distance and duration texts. -/
def dmInfoOf (js : JsonVal) : Option Str := do
  let rows ← jfield js (lit "rows")
  let r0 ← jhead rows
  let els ← jfield r0 (lit "elements")
  let el ← jhead els
  let dv ← jfield el (lit "distance")
  let d ← jfield dv (lit "text")
  let tv ← jfield el (lit "duration")
  let t ← jfield tv (lit "text")
  some (pyStr d ++ lit ", " ++ pyStr t)

/-- Non-zero count of snapped points (roads success marker). -/
def roadsPtsOf (js : JsonVal) : Option Nat :=
  match jfield js (lit "snappedPoints") with
  | some (.arr xs) => if xs.length ≠ 0 then some xs.length else none
  | some (.strv s) => if s.length ≠ 0 then some s.length else none
  | some (.obj kv) => if kv.length ≠ 0 then some kv.length else none
  | _ => none

/-- The expected success marker of each endpoint (true means the response
carries it).  The batch-geocode and geolocate probes have no marker — they
record unconditionally — so theirs is constantly true. -/
def svcMarker : Service → HttpOutcome → Bool
  | .geocode, o => respStatusOK o
  | .batchgeocode, _ => true
  | .staticmap, o => is200 o
  | .streetview, o => is200 o
  | .photoreference, o => (photoRefOf (parsedOf o).2).isSome
  | .placedetails, o => respStatusOK o
  | .textsearch, o => (firstNameOf (parsedOf o).2).isSome
  | .distancematrix, o => (dmInfoOf (parsedOf o).2).isSome
  | .elevation, o => (elevInfoOf (parsedOf o).2).isSome
  | .timezone, o => (tzOf (parsedOf o).2).isSome
  | .nearbysearch, o => (firstNameOf (parsedOf o).2).isSome
  | .autocomplete, o => (firstDescOf (parsedOf o).2).isSome
  | .snaptoroads, o => (roadsPtsOf (parsedOf o).2).isSome
  | .nearestroads, o => (roadsPtsOf (parsedOf o).2).isSome
  | .geolocate, _ => true

theorem imageBody_ok_some {r : Bool × Option Nat × List (Str × Str)} {o : Outcome}
    (h : imageBody r = .ok (some o)) : r.1 = true := by
  rcases r with ⟨b, rest⟩
  cases b
  · simp [imageBody] at h
  · rfl

theorem fetch_image_ok_is200 {env : Env} {req : Request} {dest : FsPath}
    (h : (fetch_image env req dest).1.1 = true) : is200 (env req) = true := by
  rcases ho : env req with _ | ⟨code, hdrs, cnt, json⟩ <;>
    simp only [fetch_image, ho] at h
  · cases h
  · by_cases hc : code = 200
    · subst hc
      simp [is200, ho]
    · rw [if_neg hc] at h
      cases h

theorem placedetailsBody_ok_some {cj : Option Nat × JsonVal} {o : Outcome}
    (h : placedetailsBody cj = .ok (some o)) : statusOKJ cj.2 = true := by
  rcases cj with ⟨code, js⟩
  cases js <;> simp only [placedetailsBody, jget, pym_pure_def, pym_throw_def,
    pym_bind_ok, pym_bind_error] at h
  case null => cases h
  case boolv => cases h
  case num => cases h
  case strv => cases h
  case arr => cases h
  case obj kvs =>
  by_cases hok : eqStr ((alook kvs (lit "status")).getD .null) (lit "OK") = true
  · exact hok
  · rw [if_neg hok] at h
    simp at h

theorem timezoneBody_ok_some {cj : Option Nat × JsonVal} {o : Outcome}
    (h : timezoneBody cj = .ok (some o)) :
    ∃ v, tzOf cj.2 = some v ∧ o = ⟨cj.1, v, cj.2⟩ := by
  rcases cj with ⟨code, js⟩
  cases js <;> simp only [timezoneBody, jget, pym_pure_def, pym_throw_def,
    pym_bind_ok, pym_bind_error] at h
  case null => cases h
  case boolv => cases h
  case num => cases h
  case strv => cases h
  case arr => cases h
  case obj kvs =>
  rcases halk : alook kvs (lit "timeZoneId") with _ | v <;> rw [halk] at h <;>
    simp only [Option.getD] at h
  · simp [truthy] at h
  by_cases ht : truthy v = true
  · rw [if_pos ht] at h
    simp only [Except.ok.injEq, Option.some.injEq] at h
    exact ⟨v, by simp [tzOf, jfield, halk, ht], h.symm⟩
  · rw [if_neg ht] at h
    simp at h

theorem roadsBody_ok_some {cj : Option Nat × JsonVal} {o : Outcome}
    (h : roadsBody cj = .ok (some o)) :
    ∃ n, roadsPtsOf cj.2 = some n ∧ o = ⟨cj.1, .strv (natStr n ++ lit " points"), cj.2⟩ := by
  rcases cj with ⟨code, js⟩
  cases js <;> simp only [roadsBody, jget, pym_pure_def, pym_throw_def,
    pym_bind_ok, pym_bind_error] at h
  case null => cases h
  case boolv => cases h
  case num => cases h
  case strv => cases h
  case arr => cases h
  case obj kvs =>
  rcases halk : alook kvs (lit "snappedPoints") with _ | v <;> rw [halk] at h <;>
    simp only [Option.getD] at h
  · simp [pyLen] at h
  cases v <;> simp only [pyLen, pym_pure_def, pym_throw_def, pym_bind_ok, pym_bind_error] at h
  case null => cases h
  case boolv => cases h
  case num => cases h
  case strv s =>
      by_cases hn : s.length = 0
      · simp [hn] at h
      · rw [if_pos hn] at h
        simp only [Except.ok.injEq, Option.some.injEq] at h
        exact ⟨s.length, by simp [roadsPtsOf, jfield, halk, hn], h.symm⟩
  case arr xs =>
      by_cases hn : xs.length = 0
      · simp [hn] at h
      · rw [if_pos hn] at h
        simp only [Except.ok.injEq, Option.some.injEq] at h
        exact ⟨xs.length, by simp [roadsPtsOf, jfield, halk, hn], h.symm⟩
  case obj kvs2 =>
      by_cases hn : kvs2.length = 0
      · simp [hn] at h
      · rw [if_pos hn] at h
        simp only [Except.ok.injEq, Option.some.injEq] at h
        exact ⟨kvs2.length, by simp [roadsPtsOf, jfield, halk, hn], h.symm⟩

theorem firstResultNameBody_ok_some {cj : Option Nat × JsonVal} {o : Outcome}
    (h : firstResultNameBody cj = .ok (some o)) :
    ∃ nm, firstNameOf cj.2 = some nm ∧ o = ⟨cj.1, nm, cj.2⟩ := by
  rcases cj with ⟨code, js⟩
  cases js <;> simp only [firstResultNameBody, jget, pym_pure_def, pym_throw_def,
    pym_bind_ok, pym_bind_error] at h
  case null => cases h
  case boolv => cases h
  case num => cases h
  case strv => cases h
  case arr => cases h
  case obj kvs =>
  rcases halk : alook kvs (lit "results") with _ | v <;> rw [halk] at h <;>
    simp only [Option.getD] at h
  · simp [truthy] at h
  cases v <;> simp only [truthy] at h
  case null => simp at h
  case boolv b => cases b <;> simp [jsubi] at h
  case num tok => by_cases hz : numIsZero tok <;> simp [hz, jsubi] at h
  case obj kvs2 => rcases kvs2 with _ | ⟨p2, tl2⟩ <;> simp [jsubi] at h
  case strv s =>
      rcases s with _ | ⟨c, tl⟩ <;> simp [jget] at h
  case arr xs =>
      rcases xs with _ | ⟨x, tl⟩ <;> simp at h
      cases x <;> simp [jget] at h
      case obj kv0 =>
      refine ⟨(alook kv0 (lit "name")).getD (.strv []), ?_, ?_⟩
      · simp [firstNameOf, jfield, halk, jhead]
      · obtain ⟨rfl, rfl, rfl⟩ := h
        rfl

theorem autocompleteBody_ok_some {cj : Option Nat × JsonVal} {o : Outcome}
    (h : autocompleteBody cj = .ok (some o)) :
    ∃ d, firstDescOf cj.2 = some d ∧ o = ⟨cj.1, d, cj.2⟩ := by
  rcases cj with ⟨code, js⟩
  cases js <;> simp only [autocompleteBody, jget, pym_pure_def, pym_throw_def,
    pym_bind_ok, pym_bind_error] at h
  case null => cases h
  case boolv => cases h
  case num => cases h
  case strv => cases h
  case arr => cases h
  case obj kvs =>
  rcases halk : alook kvs (lit "predictions") with _ | v <;> rw [halk] at h <;>
    simp only [Option.getD] at h
  · simp [truthy] at h
  cases v <;> simp only [truthy] at h
  case null => simp at h
  case boolv b => cases b <;> simp [jsubi] at h
  case num tok => by_cases hz : numIsZero tok <;> simp [hz, jsubi] at h
  case obj kvs2 => rcases kvs2 with _ | ⟨p2, tl2⟩ <;> simp [jsubi] at h
  case strv s =>
      rcases s with _ | ⟨c, tl⟩ <;> simp [jget] at h
  case arr xs =>
      rcases xs with _ | ⟨x, tl⟩ <;> simp at h
      cases x <;> simp [jget] at h
      case obj kv0 =>
      refine ⟨(alook kv0 (lit "description")).getD (.strv []), ?_, ?_⟩
      · simp [firstDescOf, jfield, halk, jhead]
      · obtain ⟨rfl, rfl, rfl⟩ := h
        rfl

theorem elevationBody_ok_some {cj : Option Nat × JsonVal} {o : Outcome}
    (h : elevationBody cj = .ok (some o)) :
    ∃ s, elevInfoOf cj.2 = some s ∧ o = ⟨cj.1, .strv s, cj.2⟩ := by
  rcases cj with ⟨code, js⟩
  cases js <;> simp only [elevationBody, jget, pym_pure_def, pym_throw_def,
    pym_bind_ok, pym_bind_error] at h
  case null => cases h
  case boolv => cases h
  case num => cases h
  case strv => cases h
  case arr => cases h
  case obj kvs =>
  rcases halk : alook kvs (lit "results") with _ | v <;> rw [halk] at h <;>
    simp only [Option.getD] at h
  · simp [truthy] at h
  cases v <;> simp only [truthy] at h
  case null => simp at h
  case boolv b => cases b <;> simp [jsubi] at h
  case num tok => by_cases hz : numIsZero tok <;> simp [hz, jsubi] at h
  case obj kvs2 => rcases kvs2 with _ | ⟨p2, tl2⟩ <;> simp [jsubi] at h
  case strv s =>
      rcases s with _ | ⟨c, tl⟩ <;> simp [jget] at h
  case arr xs =>
      rcases xs with _ | ⟨x, tl⟩ <;> simp at h
      cases x <;> simp [jget] at h
      case obj kv0 =>
      refine ⟨pyStr ((alook kv0 (lit "elevation")).getD (.strv [])) ++ ['m'], ?_, ?_⟩
      · simp [elevInfoOf, jfield, halk, jhead]
      · obtain ⟨rfl, rfl, rfl⟩ := h
        rfl

theorem distancematrixBody_ok_some {cj : Option Nat × JsonVal} {o : Outcome}
    (h : distancematrixBody cj = .ok (some o)) :
    ∃ s, dmInfoOf cj.2 = some s ∧ o = ⟨cj.1, .strv s, cj.2⟩ := by
  rcases cj with ⟨code, js⟩
  cases js <;> simp only [distancematrixBody, jget, pym_pure_def, pym_throw_def,
    pym_bind_ok, pym_bind_error] at h
  case null => cases h
  case boolv => cases h
  case num => cases h
  case strv => cases h
  case arr => cases h
  case obj kvs =>
  rcases halk : alook kvs (lit "rows") with _ | rows <;> rw [halk] at h <;>
    simp only [Option.getD] at h
  · simp [truthy] at h
  cases rows <;> simp only [truthy] at h
  case null => simp at h
  case boolv b => cases b <;> simp [jsubi] at h
  case num tok => by_cases hz : numIsZero tok <;> simp [hz, jsubi] at h
  case obj kvs2 => rcases kvs2 with _ | ⟨p2, tl2⟩ <;> simp [jsubi] at h
  case strv s =>
      rcases s with _ | ⟨c, tl⟩ <;> simp [jget] at h
  case arr xs =>
  rcases xs with _ | ⟨x, tl⟩ <;> simp at h
  cases x <;> simp only [jsubi_arr_cons_zero, jget, pym_pure_def, pym_throw_def,
    pym_bind_ok, pym_bind_error] at h
  case null => cases h
  case boolv => cases h
  case num => cases h
  case strv => cases h
  case arr => cases h
  case obj kv0 =>
  rcases halk2 : alook kv0 (lit "elements") with _ | els <;> rw [halk2] at h <;>
    simp only [Option.getD] at h
  · simp [truthy] at h
  cases els <;> simp only [truthy] at h
  case null => simp at h
  case boolv b => cases b <;> simp [jsubs, halk2, jsubi] at h
  case num tok => by_cases hz : numIsZero tok <;> simp [hz, jsubs, halk2, jsubi] at h
  case obj kvs3 => rcases kvs3 with _ | ⟨p3, tl3⟩ <;> simp [jsubs, halk2, jsubi] at h
  case strv s2 =>
      rcases s2 with _ | ⟨c2, tl2⟩ <;> simp at h
      rcases hb : decide ((lit "distance") <:+: [c2]) <;>
        simp only [jsubi_arr_cons_zero, jsubs, halk2, jsubi_strv_cons_zero, pyIn, hb,
          pym_pure_def, pym_bind_ok] at h <;> simp [jsubs] at h
  case arr ys =>
  rcases ys with _ | ⟨y, tl3⟩ <;> simp at h
  simp only [jsubi_arr_cons_zero, pym_bind_ok, jsubs, halk2, pym_pure_def] at h
  cases y <;> simp only [pyIn, pym_pure_def, pym_throw_def, pym_bind_ok,
    pym_bind_error] at h
  case null => cases h
  case boolv => cases h
  case num => cases h
  case strv s3 =>
      rcases hb : decide ((lit "distance") <:+: s3) <;> rw [hb] at h <;> simp [jsubs] at h
  case arr xs4 =>
      split at h
      · cases h
      · simp at h
  case obj kvel =>
  rcases hb : kvel.any (fun p => p.1 = lit "distance") <;> rw [hb] at h
  · simp at h
  simp only [if_pos rfl, jsubs] at h
  rcases hd : alook kvel (lit "distance") with _ | dv <;> rw [hd] at h
  · simp at h
  simp only [pym_pure_def, pym_bind_ok] at h
  cases dv <;> simp only [jsubs, pym_pure_def, pym_throw_def, pym_bind_ok,
    pym_bind_error] at h
  case null => cases h
  case boolv => cases h
  case num => cases h
  case strv => cases h
  case arr => cases h
  case obj kvd =>
  rcases hdt : alook kvd (lit "text") with _ | d <;> rw [hdt] at h
  · simp at h
  simp only [pym_pure_def, pym_bind_ok] at h
  rcases hdu : alook kvel (lit "duration") with _ | tv <;> rw [hdu] at h
  · simp at h
  simp only [pym_pure_def, pym_bind_ok] at h
  cases tv <;> simp only [jsubs, pym_pure_def, pym_throw_def, pym_bind_ok,
    pym_bind_error] at h
  case null => cases h
  case boolv => cases h
  case num => cases h
  case strv => cases h
  case arr => cases h
  case obj kvt =>
  rcases htt : alook kvt (lit "text") with _ | t <;> rw [htt] at h
  · simp at h
  simp only [pym_pure_def, pym_bind_ok] at h
  refine ⟨pyStr d ++ lit ", " ++ pyStr t, ?_, ?_⟩
  · simp [dmInfoOf, jfield, halk, jhead, halk2, hd, hdt, hdu, htt]
  · simp only [if_true, Except.ok.injEq, Option.some.injEq] at h
    rw [← h]
    simp [List.append_assoc]


theorem svcPlan_run_marker {env : Env} {ts : Nat} {key place : Str} {out_root : FsPath}
    {s : Service} {st : St} {req : Request} {files : List (FsPath × FileContent)}
    {body : PyM (Option Outcome)} {o : Outcome}
    (hs1 : s ≠ .batchgeocode) (hs2 : s ≠ .geolocate)
    (h : svcPlan env ts key place out_root s st = .run req files body)
    (hb : body = .ok (some o)) :
    svcMarker s (env req) = true := by
  cases s
  case geocode => simp only [svcPlan] at h; cases h
  case batchgeocode => exact absurd rfl hs1
  case geolocate => exact absurd rfl hs2
  case staticmap =>
      simp only [svcPlan] at h
      split at h
      · cases h
        have h2 := fetch_image_ok_is200 (imageBody_ok_some hb)
        simpa [svcMarker] using h2
      · cases h
  case streetview =>
      simp only [svcPlan] at h
      split at h
      · cases h
        have h2 := fetch_image_ok_is200 (imageBody_ok_some hb)
        simpa [svcMarker] using h2
      · cases h
  case photoreference =>
      simp only [svcPlan] at h
      split at h
      · cases h
        obtain ⟨r, hr, -⟩ := photoreferenceBody_ok_some hb
        rw [fetch_json_eq_parsedOf] at hr
        simp [svcMarker, hr]
      · cases h
  case placedetails =>
      simp only [svcPlan] at h
      split at h
      · cases h
        have h1 := placedetailsBody_ok_some hb
        rw [fetch_json_eq_parsedOf] at h1
        simp [svcMarker, respStatusOK_eq_statusOKJ, h1]
      · cases h
  case textsearch =>
      simp only [svcPlan] at h
      cases h
      obtain ⟨v, hv, -⟩ := firstResultNameBody_ok_some hb
      rw [fetch_json_eq_parsedOf] at hv
      simp [svcMarker, hv]
  case distancematrix =>
      simp only [svcPlan] at h
      split at h
      · cases h
        obtain ⟨v, hv, -⟩ := distancematrixBody_ok_some hb
        rw [fetch_json_eq_parsedOf] at hv
        simp [svcMarker, hv]
      · cases h
  case elevation =>
      simp only [svcPlan] at h
      split at h
      · cases h
        obtain ⟨v, hv, -⟩ := elevationBody_ok_some hb
        rw [fetch_json_eq_parsedOf] at hv
        simp [svcMarker, hv]
      · cases h
  case timezone =>
      simp only [svcPlan] at h
      split at h
      · cases h
        obtain ⟨v, hv, -⟩ := timezoneBody_ok_some hb
        rw [fetch_json_eq_parsedOf] at hv
        simp [svcMarker, hv]
      · cases h
  case nearbysearch =>
      simp only [svcPlan] at h
      split at h
      · cases h
        obtain ⟨v, hv, -⟩ := firstResultNameBody_ok_some hb
        rw [fetch_json_eq_parsedOf] at hv
        simp [svcMarker, hv]
      · cases h
  case autocomplete =>
      simp only [svcPlan] at h
      split at h
      · cases h
      · cases h
        obtain ⟨v, hv, -⟩ := autocompleteBody_ok_some hb
        rw [fetch_json_eq_parsedOf] at hv
        simp [svcMarker, hv]
  case snaptoroads =>
      simp only [svcPlan] at h
      split at h
      · cases h
        obtain ⟨v, hv, -⟩ := roadsBody_ok_some hb
        rw [fetch_json_eq_parsedOf] at hv
        simp [svcMarker, hv]
      · cases h
  case nearestroads =>
      simp only [svcPlan] at h
      split at h
      · cases h
        obtain ⟨v, hv, -⟩ := roadsBody_ok_some hb
        rw [fetch_json_eq_parsedOf] at hv
        simp [svcMarker, hv]
      · cases h

theorem alook_isSome_dictInsert {α : Type} (kvs : List (Str × α)) (k m : Str) (v : α)
    (h : (alook kvs m).isSome) : (alook (dictInsert kvs k v) m).isSome := by
  by_cases hk : m = k
  · subst hk
    rw [alook_dictInsert_self]
    rfl
  · rw [alook_dictInsert_ne kvs k m v hk]
    exact h

theorem svcStep_isSome_mono (env : Env) (ts : Nat) (key place : Str) (out_root : FsPath)
    (s : Service) (st st₁ : St) (h : (svcStep env ts key place out_root s st).2 = .ok st₁)
    (m : Str) (hm : (alook st.results m).isSome) : (alook st₁.results m).isSome := by
  by_cases hs : s = .geocode
  · subst hs
    rw [svcStep_geocode] at h
    rcases geocodeStep_ok_cases h with rfl | ⟨code, js, addr, g, pidv, -, rfl⟩
    · exact hm
    · exact alook_isSome_dictInsert _ _ _ _ hm
  · rw [svcStep_eq_runPlan env ts key place out_root s hs st] at h
    rcases hpl : svcPlan env ts key place out_root s st with _ | e | ⟨req, files, body⟩ <;>
      rw [hpl] at h <;> simp only [runPlan, pym_pure_def] at h
    · obtain rfl := Except.ok.inj h
      exact hm
    · cases h
    · rcases recordWith_ok h with ⟨-, -, hcase⟩
      rcases hcase with ⟨-, rfl⟩ | ⟨o, -, hres⟩
      · exact hm
      · rw [hres]
        exact alook_isSome_dictInsert _ _ _ _ hm

theorem runSvcs_isSome_mono (env : Env) (ts : Nat) (key place : Str) (out_root : FsPath) :
    ∀ (l : List Service) (st st' : St),
      (runSvcs env ts key place out_root l st).2 = .ok st' →
      ∀ m, (alook st.results m).isSome → (alook st'.results m).isSome := by
  intro l
  induction l with
  | nil =>
      intro st st' h m hm
      obtain rfl := Except.ok.inj h
      exact hm
  | cons s rest ih =>
      intro st st' h m hm
      rcases hr1 : (svcStep env ts key place out_root s st).2 with e | st₁
      · rw [runSvcs_cons_error hr1] at h
        cases h
      · rw [runSvcs_cons_ok hr1] at h
        exact ih st₁ st' h m (svcStep_isSome_mono env ts key place out_root s st st₁ hr1 m hm)

theorem batchgeocodeBody_ok_isSome {cj : Option Nat × JsonVal} {oo : Option Outcome}
    (h : batchgeocodeBody cj = .ok oo) : oo.isSome := by
  rcases cj with ⟨code, js⟩
  by_cases hc : code = some 200
  · simp [batchgeocodeBody, hc] at h
    rw [← h]
    rfl
  · cases js <;> simp [batchgeocodeBody, hc, jget] at h
    rw [← h]
    rfl

theorem geolocateBody_ok_isSome {cj : Option Nat × JsonVal} {oo : Option Outcome}
    (h : geolocateBody cj = .ok oo) : oo.isSome := by
  rcases h1 : jget cj.2 (lit "location") (.obj []) with e | loc <;>
    simp only [geolocateBody, h1, pym_bind_error, pym_bind_ok] at h
  · cases h
  rcases h2 : jget loc (lit "lat") .null with e | latv <;>
    simp only [h2, pym_bind_error, pym_bind_ok] at h
  · cases h
  cases latv
  case null =>
      rcases h3 : jget cj.2 (lit "status") (.strv (lit "UNKNOWN")) with e | dflt <;>
        simp only [h3, pym_bind_error, pym_bind_ok] at h
      · cases h
      rcases h4 : jget cj.2 (lit "error") dflt with e | info <;>
        simp only [h4, pym_bind_error, pym_bind_ok] at h
      · cases h
      simp only [pym_pure_def, Except.ok.injEq] at h
      rw [← h]
      rfl
  all_goals
    (rcases h3 : jsubs loc (lit "lat") with e | lat1 <;>
       simp only [h3, pym_bind_error, pym_bind_ok] at h
     · cases h
     rcases h4 : jsubs loc (lit "lng") with e | lng1 <;>
       simp only [h4, pym_bind_error, pym_bind_ok] at h
     · cases h
     simp only [pym_pure_def, pym_bind_ok, Except.ok.injEq] at h
     rw [← h]
     rfl)

theorem runSvcs_always_records (env : Env) (ts : Nat) (key place : Str) (out_root : FsPath)
    (s₀ : Service) (hsg : s₀ ≠ .geocode)
    (hplan : ∀ st₀ : St, ∃ req files body,
      svcPlan env ts key place out_root s₀ st₀ = .run req files body ∧
      ∀ oo, body = .ok oo → oo.isSome) :
    ∀ l : List Service, s₀ ∈ l → ∀ st st',
      (runSvcs env ts key place out_root l st).2 = .ok st' →
      (alook st'.results (svcName s₀)).isSome := by
  intro l
  induction l with
  | nil =>
      intro hmem
      cases hmem
  | cons s rest ih =>
      intro hmem st st' h
      rcases hr1 : (svcStep env ts key place out_root s st).2 with e | st₁
      · rw [runSvcs_cons_error hr1] at h
        cases h
      rw [runSvcs_cons_ok hr1] at h
      by_cases hss : s = s₀
      · subst hss
        rw [svcStep_eq_runPlan env ts key place out_root s hsg st] at hr1
        obtain ⟨req, files, body, hpl, hok⟩ := hplan st
        rw [hpl] at hr1
        simp only [runPlan] at hr1
        rcases recordWith_ok hr1 with ⟨-, -, hcase⟩
        rcases hcase with ⟨hnone, rfl⟩ | ⟨o, hsome, hres⟩
        · exact absurd (hok none hnone) (by simp)
        · have h1 : (alook st₁.results (svcName s)).isSome := by
            rw [hres, alook_dictInsert_self]
            rfl
          exact runSvcs_isSome_mono env ts key place out_root rest st₁ st' h _ h1
      · rcases List.mem_cons.mp hmem with heq | hmem'
        · exact absurd heq.symm hss
        · exact ih hmem' st₁ st' h

/-- A response carrying no success marker for any endpoint: HTTP 403 with a
`REQUEST_DENIED` status body. -/
def c1Json : JsonVal := .obj [(lit "status", .strv (lit "REQUEST_DENIED"))]

def envC1 : Env := fun _ => .resp 403 [] [] (some c1Json)

/-- An environment in which every request fails at transport level. -/
def envExn : Env := fun _ => .exn

/-- C1 (amended): in a completed run, every probe except batch-geocode and
geolocate is omitted from the results mapping whenever the responses on its
endpoint lack that endpoint's success marker; the batch-geocode and geolocate
probes instead always record an entry, whatever the response. -/
theorem c1_soft_failures_omitted (env : Env) (ts : Nat) (key place : Str) (out_root : FsPath)
    (rs : List (Str × Outcome))
    (hrun : (test_key_place env ts key place out_root).2 = .ok rs) :
    (∀ s : Service, s ≠ .batchgeocode → s ≠ .geolocate →
      (∀ req : Request, req.url = svcUrl s → svcMarker s (env req) = false) →
      alook rs (svcName s) = none) ∧
    (alook rs (svcName .batchgeocode)).isSome ∧
    (alook rs (svcName .geolocate)).isSome := by
  rcases hp : (runSvcs env ts key place out_root SERVICES ⟨[], none, none⟩).2 with e | st' <;>
    simp only [test_key_place, hp, Except.map] at hrun
  · cases hrun
  obtain rfl : st'.results = rs := Except.ok.inj hrun
  refine ⟨?_, ?_, ?_⟩
  · intro s hs1 hs2 hmk
    by_cases hsg : s = .geocode
    · subst hsg
      have hnotok : respStatusOK (env (geocodeReq key place)) = false := by
        have h0 := hmk (geocodeReq key place) rfl
        simpa [svcMarker] using h0
      obtain ⟨-, hres⟩ := geocodeStep_notOK hnotok (⟨[], none, none⟩ : St)
      rcases hres with hok1 | ⟨e, herr⟩
      · have h2 : (svcStep env ts key place out_root .geocode ⟨[], none, none⟩).2 =
            .ok ⟨[], none, none⟩ := by rw [svcStep_geocode, hok1]
        rw [SERVICES_eq, runSvcs_cons_ok h2] at hp
        obtain ⟨-, -, p3⟩ := runSvcs_preserves env ts key place out_root SERVICES_rest
          (by decide) _ st' hp
        exact p3.trans rfl
      · have h2 : (svcStep env ts key place out_root .geocode ⟨[], none, none⟩).2 =
            .error e := by rw [svcStep_geocode, herr]
        rw [SERVICES_eq, runSvcs_cons_error h2] at hp
        cases hp
    · rcases halk : alook st'.results (svcName s) with _ | o
      · rfl
      exfalso
      rcases runSvcs_recorded env ts key place out_root SERVICES s hsg
          ⟨[], none, none⟩ st' o hp halk with hin | ⟨st₀, req, files, body, hpl, hbody⟩
      · simp [alook] at hin
      · have hurl := svcPlan_run_url hpl
        have hmkt := svcPlan_run_marker hs1 hs2 hpl hbody
        rw [hmk req hurl] at hmkt
        cases hmkt
  · refine runSvcs_always_records env ts key place out_root .batchgeocode (by decide)
      ?_ SERVICES (by decide) ⟨[], none, none⟩ st' hp
    intro st₀
    exact ⟨batchgeocodeReq key place, _, _, rfl, fun oo hoo => batchgeocodeBody_ok_isSome hoo⟩
  · refine runSvcs_always_records env ts key place out_root .geolocate (by decide)
      ?_ SERVICES (by decide) ⟨[], none, none⟩ st' hp
    intro st₀
    exact ⟨geolocateReq key, _, _, rfl, fun oo hoo => geolocateBody_ok_isSome hoo⟩

/-- C1 counterexample to the frozen claim: under an environment answering every
request with HTTP 403 and a `REQUEST_DENIED` status body (a soft failure for
every endpoint), a completed run still maps both `batchgeocode` and
`geolocate` to recorded entries. -/
theorem c1_counterexample :
    (test_key_place envC1 0 (lit "k") (lit "x") []).2.map
      (fun rs => (alook rs (lit "batchgeocode"), alook rs (lit "geolocate")))
    = .ok (some ⟨some 403, .strv (lit "REQUEST_DENIED"), c1Json⟩,
           some ⟨some 403, .strv (lit "REQUEST_DENIED"), c1Json⟩) := by
  rfl

/-- Witness for C1 at a concrete input: with every request failing at
transport level, the run completes, the textsearch row is absent, and the
batch-geocode and geolocate rows are present. -/
theorem c1_soft_failures_omitted_witness :
    ∃ rs, (test_key_place envExn 0 (lit "k") (lit "x") []).2 = .ok rs ∧
      alook rs (lit "textsearch") = none ∧
      (alook rs (lit "batchgeocode")).isSome ∧
      (alook rs (lit "geolocate")).isSome := by
  obtain ⟨h1, h2, h3⟩ := c1_soft_failures_omitted envExn 0 (lit "k") (lit "x") [] _ rfl
  exact ⟨_, rfl, h1 .textsearch (by decide) (by decide) (fun req hu => rfl), h2, h3⟩

/-! ### C7: well-formed (crash-free) responses -/

def softKeys : List Str := [lit "status", lit "error", lit "error_message"]

def wfSoftBody : JsonVal → Bool
  | .obj kvs => kvs.all (fun p => decide (p.1 ∈ softKeys)) && !statusOKJ (.obj kvs)
  | _ => false

def wfCL (hdrs : List (Str × Str)) : Bool :=
  match alook hdrs (lit "Content-Length") with
  | none => true
  | some s => !s.isEmpty && s.all Char.isDigit

def wfResp : HttpOutcome → Bool
  | .exn => true
  | .resp _ hdrs _ none => wfCL hdrs
  | .resp _ hdrs _ (some js) => wfCL hdrs && wfSoftBody js

theorem alook_eq_none_of_all {α : Type} (P : Str → Bool) {kvs : List (Str × α)}
    (hall : kvs.all (fun p => P p.1) = true) (k : Str) (hk : P k = false) :
    alook kvs k = none := by
  induction kvs with
  | nil => rfl
  | cons hd tl ih =>
      rcases hd with ⟨k₁, v⟩
      simp only [List.all_cons, Bool.and_eq_true] at hall
      by_cases hke : k₁ = k
      · rw [hke] at hall
        rw [hall.1] at hk
        cases hk
      · simp only [alook, if_neg hke]
        exact ih hall.2

theorem wfSoftBody_obj {js : JsonVal} (h : wfSoftBody js = true) :
    ∃ kvs, js = .obj kvs ∧ kvs.all (fun p => decide (p.1 ∈ softKeys)) = true ∧
      statusOKJ js = false := by
  cases js <;> simp only [wfSoftBody] at h
  case obj kvs =>
    simp only [Bool.and_eq_true, Bool.not_eq_true'] at h
    exact ⟨kvs, rfl, h.1, h.2⟩
  all_goals cases h

theorem wfResp_parsed_soft {o : HttpOutcome} (h : wfResp o = true) :
    wfSoftBody (parsedOf o).2 = true := by
  rcases o with _ | ⟨code, hdrs, cnt, j⟩
  · rfl
  · rcases j with _ | js
    · rfl
    · simp only [wfResp, Bool.and_eq_true] at h
      exact h.2

theorem wfResp_statusOK_false {o : HttpOutcome} (h : wfResp o = true) :
    respStatusOK o = false := by
  rw [respStatusOK_eq_statusOKJ]
  obtain ⟨kvs, heq, -, hst⟩ := wfSoftBody_obj (wfResp_parsed_soft h)
  rw [heq] at hst
  rw [heq]
  exact hst

theorem wfResp_fetch_obj (env : Env) (req : Request) (hwf : wfResp (env req) = true) :
    ∃ kvs, fetch_json env req = ((parsedOf (env req)).1, .obj kvs) ∧
      kvs.all (fun p => decide (p.1 ∈ softKeys)) = true ∧
      statusOKJ (.obj kvs) = false := by
  obtain ⟨kvs, heq, hall, hst⟩ := wfSoftBody_obj (wfResp_parsed_soft hwf)
  refine ⟨kvs, ?_, hall, by rw [← heq]; exact hst⟩
  rw [fetch_json_eq_parsedOf]
  rcases hp : parsedOf (env req) with ⟨code, js⟩
  rw [hp] at heq
  simp only at heq
  rw [heq]

theorem batchgeocodeBody_wf (env : Env) (req : Request) (hwf : wfResp (env req) = true) :
    ∃ oo, batchgeocodeBody (fetch_json env req) = .ok oo := by
  obtain ⟨kvs, heq, -, -⟩ := wfResp_fetch_obj env req hwf
  rw [heq]
  by_cases hc : (parsedOf (env req)).1 = some 200
  · exact ⟨some ⟨(parsedOf (env req)).1, .strv [], .obj kvs⟩,
      by simp [batchgeocodeBody, hc]⟩
  · exact ⟨some ⟨(parsedOf (env req)).1, (alook kvs (lit "status")).getD (.strv []), .obj kvs⟩,
      by simp [batchgeocodeBody, hc, jget]⟩

theorem photoreferenceBody_wf (env : Env) (req : Request) (hwf : wfResp (env req) = true) :
    ∃ oo, photoreferenceBody (fetch_json env req) = .ok oo := by
  obtain ⟨kvs, heq, hall, -⟩ := wfResp_fetch_obj env req hwf
  rw [heq]
  exact ⟨none, by simp [photoreferenceBody, jget,
    alook_eq_none_of_all (fun s => decide (s ∈ softKeys)) hall (lit "candidates") (by decide), truthy]⟩

theorem placedetailsBody_wf (env : Env) (req : Request) (hwf : wfResp (env req) = true) :
    ∃ oo, placedetailsBody (fetch_json env req) = .ok oo := by
  obtain ⟨kvs, heq, -, hst⟩ := wfResp_fetch_obj env req hwf
  rw [heq]
  simp only [statusOKJ] at hst
  exact ⟨none, by simp [placedetailsBody, jget, hst]⟩

theorem firstResultNameBody_wf (env : Env) (req : Request) (hwf : wfResp (env req) = true) :
    ∃ oo, firstResultNameBody (fetch_json env req) = .ok oo := by
  obtain ⟨kvs, heq, hall, -⟩ := wfResp_fetch_obj env req hwf
  rw [heq]
  exact ⟨none, by simp [firstResultNameBody, jget,
    alook_eq_none_of_all (fun s => decide (s ∈ softKeys)) hall (lit "results") (by decide), truthy]⟩

theorem distancematrixBody_wf (env : Env) (req : Request) (hwf : wfResp (env req) = true) :
    ∃ oo, distancematrixBody (fetch_json env req) = .ok oo := by
  obtain ⟨kvs, heq, hall, -⟩ := wfResp_fetch_obj env req hwf
  rw [heq]
  exact ⟨none, by simp [distancematrixBody, jget,
    alook_eq_none_of_all (fun s => decide (s ∈ softKeys)) hall (lit "rows") (by decide), truthy]⟩

theorem elevationBody_wf (env : Env) (req : Request) (hwf : wfResp (env req) = true) :
    ∃ oo, elevationBody (fetch_json env req) = .ok oo := by
  obtain ⟨kvs, heq, hall, -⟩ := wfResp_fetch_obj env req hwf
  rw [heq]
  exact ⟨none, by simp [elevationBody, jget,
    alook_eq_none_of_all (fun s => decide (s ∈ softKeys)) hall (lit "results") (by decide), truthy]⟩

theorem timezoneBody_wf (env : Env) (req : Request) (hwf : wfResp (env req) = true) :
    ∃ oo, timezoneBody (fetch_json env req) = .ok oo := by
  obtain ⟨kvs, heq, -, -⟩ := wfResp_fetch_obj env req hwf
  rw [heq]
  by_cases ht : truthy ((alook kvs (lit "timeZoneId")).getD (.strv [])) = true
  · exact ⟨some ⟨(parsedOf (env req)).1, (alook kvs (lit "timeZoneId")).getD (.strv []), .obj kvs⟩,
      by simp [timezoneBody, jget, ht]⟩
  · exact ⟨none, by simp [timezoneBody, jget, ht]⟩

theorem autocompleteBody_wf (env : Env) (req : Request) (hwf : wfResp (env req) = true) :
    ∃ oo, autocompleteBody (fetch_json env req) = .ok oo := by
  obtain ⟨kvs, heq, hall, -⟩ := wfResp_fetch_obj env req hwf
  rw [heq]
  exact ⟨none, by simp [autocompleteBody, jget,
    alook_eq_none_of_all (fun s => decide (s ∈ softKeys)) hall (lit "predictions") (by decide), truthy]⟩

theorem roadsBody_wf (env : Env) (req : Request) (hwf : wfResp (env req) = true) :
    ∃ oo, roadsBody (fetch_json env req) = .ok oo := by
  obtain ⟨kvs, heq, hall, -⟩ := wfResp_fetch_obj env req hwf
  rw [heq]
  exact ⟨none, by simp [roadsBody, jget,
    alook_eq_none_of_all (fun s => decide (s ∈ softKeys)) hall (lit "snappedPoints") (by decide), pyLen]⟩

theorem geolocateBody_wf (env : Env) (req : Request) (hwf : wfResp (env req) = true) :
    ∃ oo, geolocateBody (fetch_json env req) = .ok oo := by
  obtain ⟨kvs, heq, hall, -⟩ := wfResp_fetch_obj env req hwf
  rw [heq]
  exact ⟨some ⟨(parsedOf (env req)).1,
    (alook kvs (lit "error")).getD ((alook kvs (lit "status")).getD (.strv (lit "UNKNOWN"))),
    .obj kvs⟩,
    by simp [geolocateBody, jget, alook_eq_none_of_all (fun s => decide (s ∈ softKeys)) hall (lit "location") (by decide), alook]⟩

theorem pyIntOfStr_digits {s : Str} (h1 : s ≠ []) (h2 : s.all Char.isDigit = true) :
    ∃ n : Int, pyIntOfStr s = .ok n := by
  rcases s with _ | ⟨c, tl⟩
  · exact absurd rfl h1
  have hcd : c.isDigit = true := by
    simp only [List.all_cons, Bool.and_eq_true] at h2
    exact h2.1
  have hcm : c ≠ '-' := fun hc => by rw [hc] at hcd; cases hcd
  have hcp : c ≠ '+' := fun hc => by rw [hc] at hcd; cases hcd
  rw [pyIntOfStr.eq_def]
  split
  · rename_i tl' heq
    injection heq with h3 h4
    exact absurd h3 hcm
  · rename_i tl' heq
    injection heq with h3 h4
    exact absurd h3 hcp
  · rw [if_pos (And.intro (List.cons_ne_nil c tl) h2)]
    exact ⟨_, rfl⟩

theorem imageBody_wf (env : Env) (req : Request) (dest : FsPath)
    (hwf : wfResp (env req) = true) :
    ∃ oo, imageBody (fetch_image env req dest).1 = .ok oo := by
  rcases ho : env req with _ | ⟨code, hdrs, cnt, j⟩
  · exact ⟨none, by simp [fetch_image, ho, imageBody]⟩
  · have hcl : wfCL hdrs = true := by
      rw [ho] at hwf
      cases j <;> simp only [wfResp, Bool.and_eq_true] at hwf
      · exact hwf
      · exact hwf.1
    by_cases hc : code = 200
    · subst hc
      rcases hs : alook hdrs (lit "Content-Length") with _ | s
      · exact ⟨some ⟨some 200,
          .strv ((alook hdrs (lit "Content-Type")).getD [] ++ lit ", " ++
            intStr (Int.fdiv 0 1024) ++ lit "KB"),
          .obj (hdrs.map (fun p => (p.1, .strv p.2)))⟩,
          by simp [fetch_image, ho, imageBody, hs]⟩
      · have h12 : s ≠ [] ∧ s.all Char.isDigit = true := by
          rw [wfCL, hs] at hcl
          simp only [Bool.and_eq_true, Bool.not_eq_true'] at hcl
          refine ⟨?_, hcl.2⟩
          intro hn
          rw [hn] at hcl
          exact absurd hcl.1 (by decide)
        obtain ⟨n, hn⟩ := pyIntOfStr_digits h12.1 h12.2
        exact ⟨some ⟨some 200,
          .strv ((alook hdrs (lit "Content-Type")).getD [] ++ lit ", " ++
            intStr (Int.fdiv n 1024) ++ lit "KB"),
          .obj (hdrs.map (fun p => (p.1, .strv p.2)))⟩,
          by simp [fetch_image, ho, imageBody, hs, hn]⟩
    · exact ⟨none, by simp [fetch_image, ho, imageBody, hc]⟩

theorem geocodeStep_wf_ok (env : Env) (key place : Str) (st : St)
    (hwf : wfResp (env (geocodeReq key place)) = true) :
    (geocodeStep env key place st).2 = .ok st := by
  have hnot := wfResp_statusOK_false hwf
  obtain ⟨kvs, heq, -, hst⟩ := wfResp_fetch_obj env (geocodeReq key place) hwf
  simp only [statusOKJ] at hst
  simp [geocodeStep, heq, jget, hst]

theorem recordWith_ok_exists {name : Str} {st : St} {body : PyM (Option Outcome)}
    (h : ∃ oo, body = .ok oo) : ∃ st₁, recordWith name st body = .ok st₁ := by
  obtain ⟨oo, rfl⟩ := h
  cases oo
  · exact ⟨st, rfl⟩
  · exact ⟨_, rfl⟩

theorem svcStep_wf_ok (env : Env) (ts : Nat) (key place : Str) (out_root : FsPath)
    (hwf : ∀ req, wfResp (env req) = true) (hsp : pySplit place ≠ [])
    (s : Service) (st : St) :
    ∃ st₁, (svcStep env ts key place out_root s st).2 = .ok st₁ := by
  by_cases hs : s = .geocode
  · subst hs
    rw [svcStep_geocode]
    exact ⟨st, geocodeStep_wf_ok env key place st (hwf _)⟩
  rw [svcStep_eq_runPlan env ts key place out_root s hs st]
  cases s
  · exact absurd rfl hs
  · exact recordWith_ok_exists (batchgeocodeBody_wf env _ (hwf _))
  · simp only [svcPlan]
    split
    · exact recordWith_ok_exists (imageBody_wf env _ _ (hwf _))
    · exact ⟨st, rfl⟩
  · simp only [svcPlan]
    split
    · exact recordWith_ok_exists (imageBody_wf env _ _ (hwf _))
    · exact ⟨st, rfl⟩
  · simp only [svcPlan]
    split
    · exact recordWith_ok_exists (photoreferenceBody_wf env _ (hwf _))
    · exact ⟨st, rfl⟩
  · simp only [svcPlan]
    split
    · exact recordWith_ok_exists (placedetailsBody_wf env _ (hwf _))
    · exact ⟨st, rfl⟩
  · exact recordWith_ok_exists (firstResultNameBody_wf env _ (hwf _))
  · simp only [svcPlan]
    split
    · exact recordWith_ok_exists (distancematrixBody_wf env _ (hwf _))
    · exact ⟨st, rfl⟩
  · simp only [svcPlan]
    split
    · exact recordWith_ok_exists (elevationBody_wf env _ (hwf _))
    · exact ⟨st, rfl⟩
  · simp only [svcPlan]
    split
    · exact recordWith_ok_exists (timezoneBody_wf env _ (hwf _))
    · exact ⟨st, rfl⟩
  · simp only [svcPlan]
    split
    · exact recordWith_ok_exists (firstResultNameBody_wf env _ (hwf _))
    · exact ⟨st, rfl⟩
  · simp only [svcPlan]
    split
    · rename_i heq
      exact absurd heq hsp
    · exact recordWith_ok_exists (autocompleteBody_wf env _ (hwf _))
  · simp only [svcPlan]
    split
    · exact recordWith_ok_exists (roadsBody_wf env _ (hwf _))
    · exact ⟨st, rfl⟩
  · simp only [svcPlan]
    split
    · exact recordWith_ok_exists (roadsBody_wf env _ (hwf _))
    · exact ⟨st, rfl⟩
  · exact recordWith_ok_exists (geolocateBody_wf env _ (hwf _))

theorem runSvcs_wf_ok (env : Env) (ts : Nat) (key place : Str) (out_root : FsPath)
    (hwf : ∀ req, wfResp (env req) = true) (hsp : pySplit place ≠ []) :
    ∀ (l : List Service) (st : St),
      ∃ st', (runSvcs env ts key place out_root l st).2 = .ok st' := by
  intro l
  induction l with
  | nil => intro st; exact ⟨st, rfl⟩
  | cons s rest ih =>
      intro st
      obtain ⟨st₁, h1⟩ := svcStep_wf_ok env ts key place out_root hwf hsp s st
      obtain ⟨st', h2⟩ := ih st₁
      rw [runSvcs_cons_ok h1]
      exact ⟨st', h2⟩

theorem pyStrip_has_nonspace (s : Str) (h : pyStrip s ≠ []) :
    ∃ c ∈ pyStrip s, ¬ pySpace c := by
  rw [pyStrip] at h ⊢
  have ht2 : (s.dropWhile pySpace).reverse.dropWhile pySpace ≠ [] := by
    intro hh
    rw [hh] at h
    exact h rfl
  refine ⟨((s.dropWhile pySpace).reverse.dropWhile pySpace).head ht2, ?_, ?_⟩
  · rw [List.mem_reverse]
    exact List.head_mem ht2
  · have hh := List.head_dropWhile_not pySpace ((s.dropWhile pySpace).reverse) ht2
    simp [hh]

theorem pySplit_strip_ne_nil (s : Str) (h : pyStrip s ≠ []) :
    pySplit (pyStrip s) ≠ [] := by
  intro hnil
  obtain ⟨c, hc, hns⟩ := pyStrip_has_nonspace s h
  exact hns (pySplitAux_eq_nil hnil c hc)

/-- An environment whose every answer is a malformed (non-object) JSON body:
parsing it crashes the very first probe. -/
def envC7 : Env := fun _ => .resp 500 [] [] (some (.arr []))

/-- C7 (amended): an input empty after stripping ends the run before any
request with exit status 1; with both inputs non-empty the run prints the
report and exits 0 whenever every response is crash-free (a transport error,
a body-less answer, or a JSON object carrying only status/error text and
well-formed headers) — however many probes fail; a malformed response body
can still crash the run with exit status 1. -/
theorem c7_exit_codes (rawKey rawPlace : Str) (env : Env) (ts : Nat) :
    ((pyStrip rawKey = [] ∨ pyStrip rawPlace = []) →
      mainProg rawKey rawPlace env ts = (.earlyExit, Trace.nil) ∧
      exitCode (mainProg rawKey rawPlace env ts).1 = 1 ∧
      (mainProg rawKey rawPlace env ts).2.reqs = []) ∧
    (pyStrip rawKey ≠ [] → pyStrip rawPlace ≠ [] →
      (∀ req, wfResp (env req) = true) →
      ∃ rs, (mainProg rawKey rawPlace env ts).1 = .report rs ∧
        exitCode (mainProg rawKey rawPlace env ts).1 = 0) := by
  constructor
  · intro hemp
    refine ⟨?_, ?_, ?_⟩ <;> simp [mainProg, if_pos hemp, exitCode, Trace.nil]
  · intro hk hp hwf
    have hcond : ¬(pyStrip rawKey = [] ∨ pyStrip rawPlace = []) := by
      rintro (h | h)
      exacts [hk h, hp h]
    have hsp : pySplit (pyStrip rawPlace) ≠ [] := pySplit_strip_ne_nil rawPlace hp
    obtain ⟨st', hok⟩ := runSvcs_wf_ok env ts (pyStrip rawKey) (pyStrip rawPlace)
      [lit "output", sha1hex8 (pyStrip rawKey)] hwf hsp SERVICES ⟨[], none, none⟩
    refine ⟨st'.results, ?_, ?_⟩ <;>
      simp only [mainProg, if_neg hcond, test_key_place, hok, Except.map, exitCode]

/-- C7 counterexample to the frozen claim: both inputs are non-empty after
stripping, yet the run crashes on the malformed geocode response body and
exits with status 1, not 0. -/
theorem c7_counterexample :
    pyStrip (lit "k") ≠ [] ∧ pyStrip (lit "x") ≠ [] ∧
    (mainProg (lit "k") (lit "x") envC7 0).1 = .crashed .attrError ∧
    exitCode (mainProg (lit "k") (lit "x") envC7 0).1 = 1 := by
  exact ⟨by decide, by decide, rfl, rfl⟩

/-- Witness for C7 at concrete inputs: a blank key exits early with status 1
and no requests; non-empty inputs with every request failing at transport
level still produce a report and exit status 0. -/
theorem c7_exit_codes_witness :
    (mainProg (lit " ") (lit "x") envExn 0 = (.earlyExit, Trace.nil)) ∧
    ∃ rs, (mainProg (lit "k") (lit "x") envExn 0).1 = .report rs ∧
      exitCode (mainProg (lit "k") (lit "x") envExn 0).1 = 0 :=
  ⟨((c7_exit_codes (lit " ") (lit "x") envExn 0).1 (Or.inl (by decide))).1,
   (c7_exit_codes (lit "k") (lit "x") envExn 0).2 (by decide) (by decide) (fun req => rfl)⟩
